import Mathlib

/-!
Verification development for the Smart Auto Trader parameter extraction
service (`PythonServices/parameter_extraction_service/parameter_extraction_service.py`).

The Python service receives a free-text vehicle-search query plus
conversation context, asks an LLM for a raw extraction dictionary,
normalizes that dictionary into a slot record (`process_parameters`),
validates it, and merges it with the confirmed context
(`run_llm_with_history`).  This file gives a shallow embedding of the
pure data-processing core of that pipeline:

* `JVal` models a loosely typed Python/JSON value (the raw LLM output is
  an untrusted dict).  Python `bool` is a subclass of `int`, so boolean
  values also pass `isinstance(val, (int, float))`; `asNum` reflects
  that.  Python floats are modelled as rationals.
* `Params` models the fully typed slot record produced by
  `create_default_parameters` / `process_parameters`.
* The string heuristics (`word_count_clean`, `is_car_related`,
  `find_negated_terms`, `find_positive_terms`) are embedded over
  `List Char`.
* `mergeStage` models the post-LLM merging section of
  `run_llm_with_history` (query analysis, scalar and list merging,
  negated lists, flag copying, sufficiency override, indifference
  handling); `run_llm_with_history` wires it together with
  normalization, the plausibility guardrail and the final validity
  check.  The LLM call itself is external nondeterminism and is
  modelled by passing its (optional) raw output as an argument.
-/

namespace SmartAuto

/-- Apostrophe as a string (several source string literals contain one). -/
def apo : String := String.mk [Char.ofNat 39]

/-- A loosely typed Python value, as found in the raw LLM extraction
dictionary.  `null` also stands for an absent key: every place the source
reads a key, an absent key and a `None` value lead to the same result. -/
inductive JVal where
  | null : JVal
  | num (q : ℚ) : JVal
  | str (s : String) : JVal
  | bool (b : Bool) : JVal
  | list (xs : List JVal) : JVal

namespace JVal

/-- `isinstance(val, (int, float))` plus the numeric value.  Python `bool`
is a subclass of `int` (`True` counts as `1`), so booleans are numbers. -/
def asNum : JVal → Option ℚ
  | .num q => some q
  | .bool b => some (if b then 1 else 0)
  | _ => none

/-- `isinstance(val, str)`. -/
def asStr : JVal → Option String
  | .str s => some s
  | _ => none

/-- `isinstance(val, bool)` (ints do not pass this check). -/
def asBool : JVal → Option Bool
  | .bool b => some b
  | _ => none

/-- `isinstance(val, list)`. -/
def asList : JVal → Option (List JVal)
  | .list xs => some xs
  | _ => none

end JVal

/-- The raw extraction dictionary handed to `process_parameters`.  A field
holds `JVal.null` when the key is absent. -/
structure RawParams where
  minPrice : JVal := .null
  maxPrice : JVal := .null
  minYear : JVal := .null
  maxYear : JVal := .null
  maxMileage : JVal := .null
  preferredMakes : JVal := .null
  preferredFuelTypes : JVal := .null
  preferredVehicleTypes : JVal := .null
  desiredFeatures : JVal := .null
  isOffTopic : JVal := .null
  offTopicResponse : JVal := .null
  clarificationNeeded : JVal := .null
  clarificationNeededFor : JVal := .null
  retrieverSuggestion : JVal := .null
  matchedCategory : JVal := .null
  intent : JVal := .null
  transmission : JVal := .null
  minEngineSize : JVal := .null
  maxEngineSize : JVal := .null
  minHorsepower : JVal := .null
  maxHorsepower : JVal := .null
  explicitly_negated_makes : JVal := .null
  explicitly_negated_vehicle_types : JVal := .null
  explicitly_negated_fuel_types : JVal := .null

/-- The fully typed slot record (`create_default_parameters` shape). -/
structure Params where
  minPrice : Option ℚ
  maxPrice : Option ℚ
  minYear : Option ℤ
  maxYear : Option ℤ
  maxMileage : Option ℤ
  preferredMakes : List String
  preferredFuelTypes : List String
  preferredVehicleTypes : List String
  desiredFeatures : List String
  isOffTopic : Bool
  offTopicResponse : Option String
  clarificationNeeded : Bool
  clarificationNeededFor : List String
  retrieverSuggestion : Option String
  matchedCategory : Option String
  intent : String
  transmission : Option String
  minEngineSize : Option ℚ
  maxEngineSize : Option ℚ
  minHorsepower : Option ℤ
  maxHorsepower : Option ℤ
  explicitly_negated_makes : List String
  explicitly_negated_vehicle_types : List String
  explicitly_negated_fuel_types : List String
deriving Repr, DecidableEq

/-- `create_default_parameters` with its seven keyword arguments made
positional (intent, is_off_topic, off_topic_response, clarification_needed,
clarification_needed_for, retriever_suggestion, matched_category). -/
def create_default_parameters (intent : String) (is_off_topic : Bool)
    (off_topic_response : Option String) (clarification_needed : Bool)
    (clarification_needed_for : List String)
    (retriever_suggestion : Option String)
    (matched_category : Option String) : Params :=
  { minPrice := none
    maxPrice := none
    minYear := none
    maxYear := none
    maxMileage := none
    preferredMakes := []
    preferredFuelTypes := []
    preferredVehicleTypes := []
    desiredFeatures := []
    isOffTopic := is_off_topic
    offTopicResponse := off_topic_response
    clarificationNeeded := clarification_needed
    clarificationNeededFor := clarification_needed_for
    retrieverSuggestion := retriever_suggestion
    matchedCategory := matched_category
    intent := intent
    transmission := none
    minEngineSize := none
    maxEngineSize := none
    minHorsepower := none
    maxHorsepower := none
    explicitly_negated_makes := []
    explicitly_negated_vehicle_types := []
    explicitly_negated_fuel_types := [] }

/-- `create_default_parameters()` with every argument at its default. -/
def defaultParams : Params :=
  create_default_parameters "new_query" false none false [] none none

/-- `VALID_MANUFACTURERS` from the source. -/
def VALID_MANUFACTURERS : List String :=
  ["BMW", "Audi", "Mercedes", "Toyota", "Honda", "Ford", "Volkswagen",
   "Nissan", "Hyundai", "Kia", "Tesla", "Volvo", "Mazda", "Skoda", "Lexus"]

/-- `VALID_FUEL_TYPES` from the source. -/
def VALID_FUEL_TYPES : List String := ["Petrol", "Diesel", "Electric", "Hybrid"]

/-- `VALID_VEHICLE_TYPES` from the source. -/
def VALID_VEHICLE_TYPES : List String :=
  ["Sedan", "Saloon", "SUV", "Crossover", "CUV", "Hatchback", "5-door",
   "hot hatch", "Estate", "Wagon", "Touring", "Coupe", "2-door",
   "sports car", "Convertible", "Cabriolet", "Roadster", "Pickup",
   "Truck", "flatbed", "Van", "Minivan", "MPV"]

/-- `CONFUSED_FALLBACK_PROMPT` from the source. -/
def CONFUSED_FALLBACK_PROMPT : String :=
  "Sorry, I seem to have gotten a bit confused. Could you please restate your main vehicle requirements simply? (e.g., " ++ apo ++ "SUV under 50k, hybrid or petrol, 2020 or newer" ++ apo ++ ")"

/-! ## String utilities (Python string semantics over `List Char`) -/

/-- Python `str.lower()` restricted to ASCII, on a character list. -/
def lowerL (l : List Char) : List Char := l.map Char.toLower

/-- Python `str.lower()` on a string. -/
def lowerStr (s : String) : String := String.mk (lowerL s.data)

/-- Python `needle in hay` (substring containment). -/
def isSubstr (needle hay : List Char) : Bool :=
  hay.tails.any (fun t => needle.isPrefixOf t)

/-- Python `hay.find(needle, start)`: the least index `i ≥ start` where
`needle` occurs, if any. -/
def findFrom (needle hay : List Char) (start : ℕ) : Option ℕ :=
  ((List.range (hay.length + 1)).filter
    (fun i => start ≤ i ∧ needle.isPrefixOf (hay.drop i))).head?

/-- Python `str.strip()`: drop leading and trailing whitespace. -/
def stripL (l : List Char) : List Char :=
  ((l.dropWhile Char.isWhitespace).reverse.dropWhile Char.isWhitespace).reverse

/-- Python `str.split(sep)` for a non-empty separator, splitting on
non-overlapping occurrences from the left.  `fuel` bounds recursion depth. -/
def splitOnSub (sep : List Char) : ℕ → List Char → List (List Char)
  | 0, t => [t]
  | fuel + 1, t =>
    match findFrom sep t 0 with
    | none => [t]
    | some i => t.take i :: splitOnSub sep fuel (t.drop (i + sep.length))

/-- A regex word character (`\w` over ASCII): letters, digits, underscore. -/
def isWordChar (c : Char) : Bool := c.isAlphanum || c = '_'

/-- Python `re.search(r"\b" + re.escape(item) + r"\b", text)` for an item
that begins and ends with a word character (true for every vocabulary
entry): the item occurs at some position with no word character
immediately before or after. -/
def wordSearch (item text : List Char) : Bool :=
  (List.range (text.length + 1)).any (fun i =>
    item.isPrefixOf (text.drop i) &&
    (decide (i = 0) || !isWordChar (text.getD (i - 1) ' ')) &&
    (decide (i + item.length ≥ text.length) || !isWordChar (text.getD (i + item.length) ' ')))

/-- Python `str.strip()` on a string. -/
def stripStr (s : String) : String := String.mk (stripL s.data)

/-! ## `process_parameters`: normalization of the raw extraction

Each helper below embeds one field-handling block of
`process_parameters`.  In the source the whole body sits in a
`try`/`except` whose handler returns the all-default record with
`intent="error"`; every operation in the body is total, so the handler
is unreachable in this embedding and the helpers are total functions. -/

/-- Python `int(val)`: truncation toward zero. -/
def pyInt (q : ℚ) : ℤ := if 0 ≤ q then ⌊q⌋ else ⌈q⌉

/-- `minPrice` / `maxPrice` block: positive numbers, kept as floats. -/
def normPrice (j : JVal) : Option ℚ :=
  match j.asNum with
  | some v => if 0 < v then some v else none
  | none => none

/-- `minYear` / `maxYear` block: numbers in `[1900, current_year + 1]`,
converted with `int()`. -/
def normYear (current_year : ℤ) (j : JVal) : Option ℤ :=
  match j.asNum with
  | some v =>
    if 1900 ≤ v ∧ v ≤ ((current_year + 1 : ℤ) : ℚ) then some (pyInt v) else none
  | none => none

/-- `maxMileage` block: numbers `≥ 0`, converted with `int()`. -/
def normMileage (j : JVal) : Option ℤ :=
  match j.asNum with
  | some v => if 0 ≤ v then some (pyInt v) else none
  | none => none

/-- `minEngineSize` / `maxEngineSize` block: numbers in `[0.5, 10.0]`. -/
def normEngine (j : JVal) : Option ℚ :=
  match j.asNum with
  | some v => if mkRat 1 2 ≤ v ∧ v ≤ 10 then some v else none
  | none => none

/-- `minHorsepower` / `maxHorsepower` block: numbers in `[20, 1500]`,
converted with `int()`. -/
def normHp (j : JVal) : Option ℤ :=
  match j.asNum with
  | some v => if 20 ≤ v ∧ v ≤ 1500 then some (pyInt v) else none
  | none => none

/-- The case-insensitive canonical-casing lookup
`valid_map[m.lower()]` guarded by `m.lower() in valid_lower`.  The
source builds `valid_map = {item.lower(): item}`; all vocabulary lists
have pairwise distinct lowercasings, so the first match is the unique
one. -/
def canonLookup (valid : List String) (s : String) : Option String :=
  valid.find? (fun v => lowerStr v = lowerStr s)

/-- Array-field block: keep string entries whose lowercasing is in the
vocabulary, re-emitted in canonical casing; a non-list value leaves the
default `[]`. -/
def normList (valid : List String) (j : JVal) : List String :=
  match j.asList with
  | some xs => xs.filterMap (fun x =>
      match x.asStr with
      | some m => canonLookup valid m
      | none => none)
  | none => []

/-- `desiredFeatures` block: keep non-empty (after `strip()`) strings. -/
def normFeatures (j : JVal) : List String :=
  match j.asList with
  | some xs => xs.filterMap (fun x =>
      match x.asStr with
      | some f => if stripL f.data = [] then none else some f
      | none => none)
  | none => []

/-- Boolean-flag block (`isinstance(…, bool)`), default `false`. -/
def normFlag (j : JVal) : Bool := (j.asBool).getD false

/-- String-field block (`offTopicResponse` etc.), default `none`. -/
def normOptStr (j : JVal) : Option String := j.asStr

/-- `valid_intents` from the intent block of `process_parameters`. -/
def validIntents : List String :=
  ["new_query", "clarify", "refine_criteria", "add_criteria",
   "replace_criteria", "error", "off_topic", "negative_constraint"]

/-- Intent block: `lower().strip()` then membership in the closed set,
defaulting to `"new_query"` when absent, non-string or unrecognized. -/
def normIntent (j : JVal) : String :=
  match j.asStr with
  | some s =>
    let t := stripStr (lowerStr s)
    if t ∈ validIntents then t else "new_query"
  | none => "new_query"

/-- `clarificationNeededFor` / `explicitly_negated_*` block: keep the
string entries of a list value. -/
def normStrList (j : JVal) : List String :=
  match j.asList with
  | some xs => xs.filterMap (fun x => x.asStr)
  | none => []

/-- Transmission block: `strip().lower()`, accept only
`"automatic"`/`"manual"`, re-emit capitalized. -/
def normTransmission (j : JVal) : Option String :=
  match j.asStr with
  | some s =>
    let t := lowerStr (stripStr s)
    if t = "automatic" then some "Automatic"
    else if t = "manual" then some "Manual"
    else none
  | none => none

/-- `process_parameters(params)`: normalization of the raw LLM output
into a typed record, field by field as in the source.  `current_year`
stands for `datetime.datetime.now().year`. -/
def process_parameters (current_year : ℤ) (params : RawParams) : Params :=
  { minPrice := normPrice params.minPrice
    maxPrice := normPrice params.maxPrice
    minYear := normYear current_year params.minYear
    maxYear := normYear current_year params.maxYear
    maxMileage := normMileage params.maxMileage
    preferredMakes := normList VALID_MANUFACTURERS params.preferredMakes
    preferredFuelTypes := normList VALID_FUEL_TYPES params.preferredFuelTypes
    preferredVehicleTypes := normList VALID_VEHICLE_TYPES params.preferredVehicleTypes
    desiredFeatures := normFeatures params.desiredFeatures
    isOffTopic := normFlag params.isOffTopic
    offTopicResponse := normOptStr params.offTopicResponse
    clarificationNeeded := normFlag params.clarificationNeeded
    clarificationNeededFor := normStrList params.clarificationNeededFor
    retrieverSuggestion := normOptStr params.retrieverSuggestion
    matchedCategory := normOptStr params.matchedCategory
    intent := normIntent params.intent
    transmission := normTransmission params.transmission
    minEngineSize := normEngine params.minEngineSize
    maxEngineSize := normEngine params.maxEngineSize
    minHorsepower := normHp params.minHorsepower
    maxHorsepower := normHp params.maxHorsepower
    explicitly_negated_makes := normStrList params.explicitly_negated_makes
    explicitly_negated_vehicle_types := normStrList params.explicitly_negated_vehicle_types
    explicitly_negated_fuel_types := normStrList params.explicitly_negated_fuel_types }

/-! ## Query heuristics -/

/-- A character kept by `re.sub(r"[^a-zA-Z0-9 ]+", "", query)`. -/
def keepChar (c : Char) : Bool :=
  ('a' ≤ c && c ≤ 'z') || ('A' ≤ c && c ≤ 'Z') || c.isDigit || c = ' '

/-- Python `str.split()` word count: the number of maximal runs of
non-separator characters (after cleaning, the only separator left is the
space). -/
def countWords (l : List Char) : ℕ :=
  ((l.splitOn ' ').filter (fun w => w ≠ [])).length

/-- `word_count_clean(query)`: strip punctuation, lowercase, count words. -/
def word_count_clean (query : String) : ℕ :=
  countWords (lowerL (query.data.filter keepChar))

/-- The index of the last occurrence of `needle` in `hay`, if any. -/
def findLast (needle hay : List Char) : Option ℕ :=
  ((List.range (hay.length + 1)).filter
    (fun i => needle.isPrefixOf (hay.drop i))).getLast?

/-- `extract_newest_user_fragment(query)`: `rsplit(" - Additional info:", 1)`,
keeping the stripped part after the last occurrence (or the stripped
query when the marker is absent). -/
def extract_newest_user_fragment (query : String) : String :=
  let marker := (" - Additional info:" : String).data
  match findLast marker query.data with
  | some i => String.mk (stripL (query.data.drop (i + marker.length)))
  | none => String.mk (stripL query.data)

/-- The `car_keywords` set literal of `is_car_related` (the duplicated
`"auto"` entry of the source literal is kept; only membership matters). -/
def carKeywords : List String :=
  ["car", "vehicle", "auto", "automobile", "sedan", "suv", "truck",
   "hatchback", "coupe", "convertible", "van", "minivan", "electric",
   "hybrid", "diesel", "petrol", "gasoline", "make", "model", "year",
   "price", "mileage", "engine", "transmission", "drive", "buy", "sell",
   "lease", "dealer", "used", "new", "road tax", "nct", "insurance",
   "mpg", "kpl", "automatic", "manual", "auto", "stick shift",
   "paddle shift", "dsg", "cvt", "engine size", "liter", "litre", "cc",
   "cubic", "displacement", "horsepower", "hp", "bhp", "power", "torque",
   "performance", "l engine", "cylinder"]

/-- The `off_topic_starts` tuple of `is_car_related`. -/
def offTopicStarts : List String :=
  ["hi", "hello", "how are you", "who is", "tell me a joke", "hey",
   "hey there", "yo", "sup", "what" ++ apo ++ "s up", "hiya", "howdy",
   "good morning", "good afternoon", "good evening"]

/-- `is_car_related(query)`: the keyword/pattern off-topic heuristic. -/
def is_car_related (query : String) : Bool :=
  if query.data.isEmpty then false
  else
    let ql := lowerL query.data
    let kws := carKeywords ++ VALID_MANUFACTURERS.map lowerStr
    if kws.any (fun k => isSubstr k.data ql) then true
    else if offTopicStarts.any (fun p => p.data.isPrefixOf ql)
         || offTopicStarts.any (fun p => ql = p.data) then false
    else if (("what is" : String).data.isPrefixOf ql
             || ("what are" : String).data.isPrefixOf ql
             || ("where is" : String).data.isPrefixOf ql)
            && !(["car", "vehicle", "suv", "sedan"].any
                  (fun k => isSubstr (String.data k) ql)) then false
    else if word_count_clean query < 2 then
      if !(kws.any (fun k => isSubstr k.data ql)) then
        if !(VALID_MANUFACTURERS.any (fun m => lowerL m.data = ql)) then false
        else true
      else true
    else true

/-! ## Term extractor (`find_negated_terms` / `find_positive_terms`)

Python sets of vocabulary terms are represented as sublists of the
vocabulary list, in vocabulary order (membership is what the merging
logic consumes; iteration order of a Python set is unspecified). -/

/-- `negation_triggers` from the source. -/
def negation_triggers : List String :=
  ["no ", "not ", "don" ++ apo ++ "t want ", "dont want ",
   "don" ++ apo ++ "t like ", "dont like ", "except ", "excluding ",
   "anything but ", "anything except ", "avoid ", "hate ", "dislike ",
   "other than ", "besides ", "apart from "]

/-- `conjunctions` from the source. -/
def conjunctions : List String := [" or ", " and ", ", "]

/-- One alternative of the clause-boundary regex
`[.!?,\n]| but | also | and | with | like | prefer ` matches at
position `i` of `t`. -/
def boundaryAt (t : List Char) (i : ℕ) : Bool :=
  (match t.drop i with
   | c :: _ => c = '.' || c = '!' || c = '?' || c = ',' || c = '\n'
   | [] => false)
  || ([" but ", " also ", " and ", " with ", " like ", " prefer "].any
       (fun w => w.data.isPrefixOf (t.drop i)))

/-- `re.search` of the clause-boundary regex: start index of the
leftmost match. -/
def boundarySearch (t : List Char) : Option ℕ :=
  ((List.range t.length).filter (fun i => boundaryAt t i)).head?

/-- The `while` loop of `find_negated_terms` for one trigger: collect
the stripped phrase after each occurrence of the trigger, up to the
clause boundary.  `start_index` advances to just past each trigger, so
`text.length + 1` fuel suffices. -/
def triggerPhrases (pattern text : List Char) : ℕ → ℕ → List (List Char)
  | 0, _ => []
  | fuel + 1, start =>
    if start < text.length then
      match findFrom pattern text start with
      | none => []
      | some idx =>
        let phrase_start := idx + pattern.length
        let tail := text.drop phrase_start
        let rel := match boundarySearch tail with
                   | some k => k
                   | none => tail.length
        stripL (tail.take rel) :: triggerPhrases pattern text fuel phrase_start
    else []

/-- Iterated splitting of a phrase on every conjunction. -/
def splitByConjunctions (phrase : List Char) : List (List Char) :=
  conjunctions.foldl
    (fun parts conj => parts.flatMap (fun part => splitOnSub conj.data (part.length + 1) part))
    [phrase]

/-- All candidate negated-item segments of a text: for every trigger
occurrence, the phrase after it, split on conjunctions, stripped,
lowercased, non-empty. -/
def negationParts (text : List Char) : List (List Char) :=
  ((negation_triggers.flatMap (fun pat =>
      triggerPhrases pat.data text (text.length + 1) 0)).flatMap
    splitByConjunctions).map (fun p => lowerL (stripL p)) |>.filter (fun p => p ≠ [])

/-- `find_negated_terms(text, valid_items)`: canonical items whole-word
matched inside some negated segment of `text.lower()`. -/
def find_negated_terms (text : String) (valid_items : List String) : List String :=
  let parts := negationParts (lowerL text.data)
  valid_items.filter (fun item => parts.any (fun part => wordSearch (lowerL item.data) part))

/-- `find_positive_terms(text, valid_items, negated_terms)`: canonical
items whole-word matched anywhere in `text.lower()` and not already
negated (case-insensitive comparison against `negated_terms`). -/
def find_positive_terms (text : String) (valid_items negated_terms : List String) :
    List String :=
  let tl := lowerL text.data
  let negLower := negated_terms.map (fun t => lowerL t.data)
  valid_items.filter (fun item =>
    !(negLower.contains (lowerL item.data)) && wordSearch (lowerL item.data) tl)

/-- `merge_list_param_corrected`: clear the list on a pure-negation query
(for this category), otherwise `(llm ∪ context) − negated`.  The first
two arguments are only used for logging in the source;
`context_list` stands for `confirmed_context.get(context_key, [])`. -/
def merge_list_param_corrected (_param_name _context_key : String)
    (llm_list : List String) (positive_set negated_set : List String)
    (is_simple_negation : Bool) (context_list : List String) : List String :=
  if is_simple_negation && !negated_set.isEmpty && positive_set.isEmpty then []
  else ((llm_list ++ context_list).dedup).filter (fun x => !(negated_set.contains x))

/-! ## Context merging (`run_llm_with_history`, post-LLM section)

`confirmed_context` is a caller-supplied dict; it is modelled as a typed
record whose all-default value also stands for the falsy empty dict
(every read in the source goes through `.get(key)` with a `None`/`[]`
default, so the two are indistinguishable to the merging code). -/

/-- The `confirmedContext` request object. -/
structure Ctx where
  confirmedMakes : List String := []
  confirmedFuelTypes : List String := []
  confirmedVehicleTypes : List String := []
  confirmedFeatures : List String := []
  confirmedMinPrice : Option ℚ := none
  confirmedMaxPrice : Option ℚ := none
  confirmedMinYear : Option ℤ := none
  confirmedMaxYear : Option ℤ := none
  confirmedMaxMileage : Option ℤ := none
  confirmedTransmission : Option String := none
  confirmedMinEngineSize : Option ℚ := none
  confirmedMaxEngineSize : Option ℚ := none
  confirmedMinHorsePower : Option ℤ := none
  confirmedMaxHorsePower : Option ℤ := none
deriving Repr, DecidableEq

/-- `PRICE_KEYWORDS` from `run_llm_with_history`. -/
def PRICE_KEYWORDS : List String :=
  ["price", "budget", "cost", "euro", "dollar", "pound", "spend", "pay",
   "afford", "€", "$", "£", "under", "over", "between", "range", "cheap",
   "expensive", "pricey", "costly", "money", "funds", "finances",
   "affordable", "grand", "k"]

/-- `YEAR_KEYWORDS` from `run_llm_with_history`. -/
def YEAR_KEYWORDS : List String :=
  ["year", "older", "newer", "age", "recent", "vintage", "yr",
   "model year", "registration", "reg", "plate", "built", "manufactured",
   "make", "made", "new", "old", "20", "19", apo, "from", "since", "before"]

/-- `MILEAGE_KEYWORDS` from `run_llm_with_history`. -/
def MILEAGE_KEYWORDS : List String :=
  ["mileage", "miles", "mile", "km", "kilometers", "kilometre",
   "odometer", "clock", "driven", "used", "low", "high", "distance",
   "travelled", "run", "usage", "wear"]

/-- `TRANSMISSION_KEYWORDS` from `run_llm_with_history`. -/
def TRANSMISSION_KEYWORDS : List String :=
  ["transmission", "automatic", "manual", "gear", "gearbox", "auto",
   "stick", "cvt", "dsg", "paddle", "shift", "clutch", "self-shifting",
   "tiptronic", "sequential"]

/-- `ENGINE_KEYWORDS` from `run_llm_with_history` (the duplicated
`"displacement"` entry of the set literal is kept once by the set). -/
def ENGINE_KEYWORDS : List String :=
  ["engine", "size", "liter", "litre", "l engine", "cc", "cubic",
   "displacement", "capacity", "motor", "cylinder", "cylinders", "block",
   "tdi", "tsi", "tfsi", "turbo", "small", "big", "large"]

/-- `HP_KEYWORDS` from `run_llm_with_history`. -/
def HP_KEYWORDS : List String :=
  ["horsepower", "hp", "bhp", "power", "ps", "kw", "performance", "fast",
   "strong", "quick", "powerful", "output", "torque", "acceleration",
   "pulling power", "grunt"]

/-- One iteration of the scalar-parameter merging loop: grounded LLM
value when the query mentions the parameter type, else context
carry-over for refine/clarify/add intents, else null. -/
def mergeScalar {α : Type} (llm_value : Option α) (query_mentions_param : Bool)
    (final_intent : String) (context_value : Option α) : Option α :=
  if llm_value.isSome && query_mentions_param then llm_value
  else if (final_intent == "refine_criteria" || final_intent == "clarify"
           || final_intent == "add_criteria") && context_value.isSome then
    context_value
  else none

/-- `_INDIFFERENCE_KEYWORDS_MAP` from the source. -/
def INDIFFERENCE_KEYWORDS_MAP : List (String × List String) :=
  [("make", ["any make", "make doesn" ++ apo ++ "t matter",
             "don" ++ apo ++ "t care about make", "no preference on make",
             "all makes"]),
   ("type", ["any type", "type doesn" ++ apo ++ "t matter",
             "don" ++ apo ++ "t care about type", "no preference on type",
             "any vehicle type", "all types"]),
   ("fuel_type", ["any fuel", "fuel type doesn" ++ apo ++ "t matter",
                  "don" ++ apo ++ "t care about fuel",
                  "no preference on fuel", "all fuels"]),
   ("price", ["flexible budget", "price not important", "any budget",
              "budget flexible", "no budget"]),
   ("year", ["any year", "year doesn" ++ apo ++ "t matter",
             "don" ++ apo ++ "t care about year"]),
   ("mileage", ["any mileage", "mileage doesn" ++ apo ++ "t matter",
                "don" ++ apo ++ "t care about mileage"]),
   ("transmission", ["any transmission",
                     "transmission doesn" ++ apo ++ "t matter",
                     "don" ++ apo ++ "t care about transmission"])]

/-- `_detect_indifference_and_update_clarification_list`. -/
def detectIndifference (query_fragment : String)
    (clarification_needed_for : List String) : List String :=
  if query_fragment.data.isEmpty || clarification_needed_for.isEmpty then
    clarification_needed_for
  else
    let ql := lowerL query_fragment.data
    let detected := (INDIFFERENCE_KEYWORDS_MAP.filter
      (fun pk => pk.2.any (fun kw => isSubstr kw.data ql))).map (fun pk => pk.1)
    if detected.isEmpty then clarification_needed_for
    else clarification_needed_for.filter (fun item =>
      !(detected.contains item
        || (item == "budget" && detected.contains "price")
        || (item == "make_or_type"
            && (detected.contains "make" || detected.contains "type"))
        || (item == "vehicle_type" && detected.contains "type")))

/-- The Python-determined `clarificationNeededFor` fallback (used when
the LLM did not suggest one): sequentially append `"type"`, `"budget"`,
`"fuel_type"`, `"year"` for missing critical slots. -/
def pythonClarList (fp : Params) : List String :=
  let cur : List String := []
  let cur := if !(!fp.preferredMakes.isEmpty || !fp.preferredVehicleTypes.isEmpty)
             then cur ++ ["type"] else cur
  let cur := if fp.minPrice.isNone && fp.maxPrice.isNone
             then cur ++ ["budget"] else cur
  let cur := if fp.preferredFuelTypes.isEmpty && !cur.contains "fuel_type"
                && !cur.contains "fuel"
             then cur ++ ["fuel_type"] else cur
  let cur := if fp.minYear.isNone && fp.maxYear.isNone && !cur.contains "year"
             then cur ++ ["year"] else cur
  cur

/-- The sufficiency-override and indifference sections of
`run_llm_with_history`, applied after the merge proper; they only
rewrite `clarificationNeeded` / `clarificationNeededFor`.
`list(set(...))` is modelled by `dedup`. -/
def clarificationOverrides (processed : Params) (query_fragment : String)
    (fp : Params) : Params :=
  let fp :=
    if fp.clarificationNeeded then
      let has_vehicle_category := !fp.preferredMakes.isEmpty
        || !fp.preferredVehicleTypes.isEmpty
      let has_constraints := fp.minPrice.isSome || fp.maxPrice.isSome
        || fp.minYear.isSome || fp.maxYear.isSome || fp.maxMileage.isSome
        || !fp.preferredFuelTypes.isEmpty || fp.transmission.isSome
      if has_vehicle_category && has_constraints then
        { fp with clarificationNeeded := false, clarificationNeededFor := [] }
      else
        let base := if !processed.clarificationNeededFor.isEmpty
                    then processed.clarificationNeededFor
                    else pythonClarList fp
        { fp with clarificationNeededFor := base.dedup }
    else fp
  if !fp.clarificationNeededFor.isEmpty then
    { fp with clarificationNeededFor :=
        detectIndifference query_fragment fp.clarificationNeededFor }
  else fp

/-- `query_fragment.lower()`: the lowered newest user fragment on which
the negation/positive analysis and the keyword checks run. -/
def fragLower (user_query : String) : String :=
  lowerStr (extract_newest_user_fragment user_query)

/-- `negated_makes_set` of `run_llm_with_history`. -/
def negMakes (user_query : String) : List String :=
  find_negated_terms (fragLower user_query) VALID_MANUFACTURERS

/-- `negated_types_set` of `run_llm_with_history`. -/
def negTypes (user_query : String) : List String :=
  find_negated_terms (fragLower user_query) VALID_VEHICLE_TYPES

/-- `negated_fuels_set` of `run_llm_with_history`. -/
def negFuels (user_query : String) : List String :=
  find_negated_terms (fragLower user_query) VALID_FUEL_TYPES

/-- `positive_makes_set` of `run_llm_with_history`. -/
def posMakes (user_query : String) : List String :=
  find_positive_terms (fragLower user_query) VALID_MANUFACTURERS (negMakes user_query)

/-- `positive_types_set` of `run_llm_with_history`. -/
def posTypes (user_query : String) : List String :=
  find_positive_terms (fragLower user_query) VALID_VEHICLE_TYPES (negTypes user_query)

/-- `positive_fuels_set` of `run_llm_with_history`. -/
def posFuels (user_query : String) : List String :=
  find_positive_terms (fragLower user_query) VALID_FUEL_TYPES (negFuels user_query)

/-- `is_simple_negation_query`: negated terms somewhere, positive terms
nowhere (across all three categories). -/
def isSimpleNegation (user_query : String) : Bool :=
  !(!(posMakes user_query).isEmpty || !(posTypes user_query).isEmpty
    || !(posFuels user_query).isEmpty)
  && (!(negMakes user_query).isEmpty || !(negTypes user_query).isEmpty
    || !(negFuels user_query).isEmpty)

/-- `final_intent`: the processed intent, overridden to
`refine_criteria` on a simple-negation query. -/
def finalIntent (processed : Params) (user_query : String) : String :=
  if isSimpleNegation user_query && processed.intent != "refine_criteria"
  then "refine_criteria" else processed.intent

/-- `query_mentions_param`: some keyword of the set occurs in the
lowered query fragment. -/
def queryMentions (user_query : String) (kws : List String) : Bool :=
  kws.any (fun kw => isSubstr kw.data (fragLower user_query).data)

/-- Steps 1–6 of the merging section of `run_llm_with_history`: query
analysis, intent override, scalar merging, list merging, negated lists
and flag copying, applied to the normalized extraction `processed`.
The local variables of the source are the named definitions above. -/
def mergeCore (processed : Params) (user_query : String)
    (confirmed_context : Ctx) : Params :=
  { minPrice := mergeScalar processed.minPrice
      (queryMentions user_query PRICE_KEYWORDS)
      (finalIntent processed user_query) confirmed_context.confirmedMinPrice
    maxPrice := mergeScalar processed.maxPrice
      (queryMentions user_query PRICE_KEYWORDS)
      (finalIntent processed user_query) confirmed_context.confirmedMaxPrice
    minYear := mergeScalar processed.minYear
      (queryMentions user_query YEAR_KEYWORDS)
      (finalIntent processed user_query) confirmed_context.confirmedMinYear
    maxYear := mergeScalar processed.maxYear
      (queryMentions user_query YEAR_KEYWORDS)
      (finalIntent processed user_query) confirmed_context.confirmedMaxYear
    maxMileage := mergeScalar processed.maxMileage
      (queryMentions user_query MILEAGE_KEYWORDS)
      (finalIntent processed user_query) confirmed_context.confirmedMaxMileage
    preferredMakes :=
      if finalIntent processed user_query == "new_query" then
        posMakes user_query
      else
        merge_list_param_corrected "preferredMakes" "confirmedMakes"
          processed.preferredMakes (posMakes user_query) (negMakes user_query)
          (isSimpleNegation user_query) confirmed_context.confirmedMakes
    preferredFuelTypes :=
      if finalIntent processed user_query == "new_query" then
        posFuels user_query
      else
        merge_list_param_corrected "preferredFuelTypes" "confirmedFuelTypes"
          processed.preferredFuelTypes (posFuels user_query) (negFuels user_query)
          (isSimpleNegation user_query) confirmed_context.confirmedFuelTypes
    preferredVehicleTypes :=
      if finalIntent processed user_query == "new_query" then
        posTypes user_query
      else
        merge_list_param_corrected "preferredVehicleTypes" "confirmedVehicleTypes"
          processed.preferredVehicleTypes (posTypes user_query) (negTypes user_query)
          (isSimpleNegation user_query) confirmed_context.confirmedVehicleTypes
    desiredFeatures :=
      if finalIntent processed user_query == "new_query" then
        processed.desiredFeatures
      else
        (confirmed_context.confirmedFeatures ++ processed.desiredFeatures).dedup
    isOffTopic := processed.isOffTopic
    offTopicResponse := processed.offTopicResponse
    clarificationNeeded := processed.clarificationNeeded
    clarificationNeededFor := processed.clarificationNeededFor
    retrieverSuggestion := processed.retrieverSuggestion
    matchedCategory := processed.matchedCategory
    intent := finalIntent processed user_query
    transmission := mergeScalar processed.transmission
      (queryMentions user_query TRANSMISSION_KEYWORDS)
      (finalIntent processed user_query) confirmed_context.confirmedTransmission
    minEngineSize := mergeScalar processed.minEngineSize
      (queryMentions user_query ENGINE_KEYWORDS)
      (finalIntent processed user_query) confirmed_context.confirmedMinEngineSize
    maxEngineSize := mergeScalar processed.maxEngineSize
      (queryMentions user_query ENGINE_KEYWORDS)
      (finalIntent processed user_query) confirmed_context.confirmedMaxEngineSize
    minHorsepower := mergeScalar processed.minHorsepower
      (queryMentions user_query HP_KEYWORDS)
      (finalIntent processed user_query) confirmed_context.confirmedMinHorsePower
    maxHorsepower := mergeScalar processed.maxHorsepower
      (queryMentions user_query HP_KEYWORDS)
      (finalIntent processed user_query) confirmed_context.confirmedMaxHorsePower
    explicitly_negated_makes := negMakes user_query
    explicitly_negated_vehicle_types := negTypes user_query
    explicitly_negated_fuel_types := negFuels user_query }

/-- The whole merging section of `run_llm_with_history`: the merge
proper followed by the clarification overrides. -/
def mergeStage (processed : Params) (user_query : String)
    (confirmed_context : Ctx) : Params :=
  clarificationOverrides processed (extract_newest_user_fragment user_query)
    (mergeCore processed user_query confirmed_context)

/-- `min_price > max_price` check of the plausibility guardrail. -/
def rangeFailPrice (p : Params) : Bool :=
  match p.minPrice, p.maxPrice with
  | some a, some b => decide (b < a)
  | _, _ => false

/-- `min_year > max_year` check of the plausibility guardrail. -/
def rangeFailYear (p : Params) : Bool :=
  match p.minYear, p.maxYear with
  | some a, some b => decide (b < a)
  | _, _ => false

/-- The luxury-make check of the plausibility guardrail:
`"Ferrari" in preferredMakes` with `maxPrice < 20000`. -/
def ferrariFail (p : Params) : Bool :=
  p.preferredMakes.contains "Ferrari" &&
    (match p.maxPrice with
     | some mp => decide (mp < 20000)
     | none => false)

/-- The `validation_failed` `if`/`elif` chain of `run_llm_with_history`. -/
def validationFailed (p : Params) : Bool :=
  if rangeFailPrice p then true
  else if rangeFailYear p then true
  else if ferrariFail p then true
  else false

/-- The confused-fallback record (`intent="CONFUSED_FALLBACK"`,
`clarification_needed=True`, `retriever_suggestion` set). -/
def confusedFallback (needed_for : List String) : Params :=
  create_default_parameters "CONFUSED_FALLBACK" false none true needed_for
    (some CONFUSED_FALLBACK_PROMPT) none

/-- The common criterion disjunction of `is_valid_extraction`
(`has_other_criteria` and `is_sufficient` test the same fields). -/
def hasAnyCriterion (p : Params) : Bool :=
  p.minPrice.isSome || p.maxPrice.isSome || p.minYear.isSome
  || p.maxYear.isSome || p.maxMileage.isSome
  || !p.preferredMakes.isEmpty || !p.preferredFuelTypes.isEmpty
  || !p.preferredVehicleTypes.isEmpty || !p.desiredFeatures.isEmpty
  || p.transmission.isSome || p.minEngineSize.isSome
  || p.maxEngineSize.isSome || p.minHorsepower.isSome
  || p.maxHorsepower.isSome

/-- `is_valid_extraction(params)`. -/
def is_valid_extraction (p : Params) : Bool :=
  if p.isOffTopic && p.offTopicResponse.isSome then true
  else if p.clarificationNeeded then true
  else if p.intent == "refine_criteria"
          && (!p.explicitly_negated_makes.isEmpty
              || !p.explicitly_negated_vehicle_types.isEmpty
              || !p.explicitly_negated_fuel_types.isEmpty)
          && !hasAnyCriterion p then true
  else hasAnyCriterion p

/-- `run_llm_with_history`: LLM output (`extracted`, `none` when every
model call failed) is normalized, checked by the plausibility guardrail,
merged with context, and finally re-validated; each failure returns the
confused fallback. -/
def run_llm_with_history (current_year : ℤ) (extracted : Option RawParams)
    (user_query : String) (confirmed_context : Ctx) : Params :=
  match extracted with
  | none => confusedFallback ["reset"]
  | some raw =>
    let processed := process_parameters current_year raw
    if validationFailed processed then confusedFallback ["implausible_result"]
    else
      let final_params := mergeStage processed user_query confirmed_context
      if is_valid_extraction final_params then final_params
      else confusedFallback ["reset"]

/-! ## Intent classification and transport-level constants -/

/-- Python `max(similarities, key=similarities.get)`: the first entry
with the maximal score (ties keep the earlier label). -/
def argmaxFirst (sims : List (String × ℚ)) : String × ℚ :=
  match sims with
  | [] => ("", 0)
  | x :: rest => rest.foldl (fun acc y => if y.2 > acc.2 then y else acc) x

/-- `classify_intent_zero_shot`.  `labelSims` models the `similarities`
dict (label, cosine score) in insertion order; an empty list models
missing label embeddings, and `query_embedding_missing` the `None`
query embedding.  The cosine arithmetic itself (numpy floats) is
abstracted into the given scores. -/
def classify_intent_zero_shot (labelSims : List (String × ℚ))
    (query_embedding_missing : Bool) (threshold : ℚ) : Option String :=
  if labelSims.isEmpty then none
  else if query_embedding_missing then none
  else
    let best := argmaxFirst labelSims
    if threshold ≤ best.2 then some best.1
    else
      let specific_score := (labelSims.lookup "SPECIFIC_SEARCH").getD 0
      let vague_score := (labelSims.lookup "VAGUE_INQUIRY").getD 0
      let very_low_threshold : ℚ := mkRat 3 10
      if best.1 == "VAGUE_INQUIRY"
         || (specific_score < very_low_threshold
             && vague_score < very_low_threshold) then
        some "VAGUE_INQUIRY"
      else some "SPECIFIC_SEARCH"

/-- The caller side of classification in `extract_parameters`: a `None`
result (and any classification error) defaults to `SPECIFIC_SEARCH`. -/
def caller_default_intent (intent_result : Option String) : String :=
  match intent_result with
  | some label => label
  | none => "SPECIFIC_SEARCH"

/-- The top-level exception handler of `extract_parameters`:
`return jsonify(create_default_parameters(intent="error")), 500`. -/
def unhandled_exception_response : Params × ℕ :=
  (create_default_parameters "error" false none false [] none none, 500)

/-- The soft-failure path of the `SPECIFIC_SEARCH` route when every LLM
extraction attempt failed: `final_response =
create_default_parameters(intent="error")`, returned with status 200. -/
def llm_failure_soft_response : Params × ℕ :=
  (create_default_parameters "error" false none false [] none none, 200)

/-! ## Helper lemmas -/

/-- The fold of `argmaxFirst` returns its seed or a list element. -/
lemma argFold_mem (l : List (String × ℚ)) : ∀ (x : String × ℚ),
    (l.foldl (fun acc y => if y.2 > acc.2 then y else acc) x) = x ∨
    (l.foldl (fun acc y => if y.2 > acc.2 then y else acc) x) ∈ l := by
  induction l with
  | nil => intro x; left; rfl
  | cons a t ih =>
    intro x
    simp only [List.foldl_cons]
    rcases ih (if a.2 > x.2 then a else x) with h | h
    · rw [h]
      split_ifs with hgt
      · right; exact List.mem_cons_self a t
      · left; rfl
    · right; exact List.mem_cons_of_mem a h

/-- The fold of `argmaxFirst` dominates its seed and every element. -/
lemma argFold_ge (l : List (String × ℚ)) : ∀ (x : String × ℚ),
    x.2 ≤ (l.foldl (fun acc y => if y.2 > acc.2 then y else acc) x).2 ∧
    ∀ p ∈ l, p.2 ≤ (l.foldl (fun acc y => if y.2 > acc.2 then y else acc) x).2 := by
  induction l with
  | nil => intro x; exact ⟨le_refl _, by intro p hp; exact absurd hp (List.not_mem_nil p)⟩
  | cons a t ih =>
    intro x
    simp only [List.foldl_cons]
    obtain ⟨h1, h2⟩ := ih (if a.2 > x.2 then a else x)
    have hx : x.2 ≤ (if a.2 > x.2 then a else x).2 := by
      split_ifs with hgt
      · exact le_of_lt hgt
      · exact le_refl _
    have ha : a.2 ≤ (if a.2 > x.2 then a else x).2 := by
      split_ifs with hgt
      · exact le_refl _
      · exact le_of_not_lt hgt
    refine ⟨le_trans hx h1, ?_⟩
    intro p hp
    rcases List.mem_cons.1 hp with h | h
    · subst h; exact le_trans ha h1
    · exact h2 p h

/-- `argmaxFirst` of a non-empty score list is a maximal entry of it. -/
lemma argmaxFirst_spec (sims : List (String × ℚ)) (h : sims ≠ []) :
    argmaxFirst sims ∈ sims ∧ ∀ p ∈ sims, p.2 ≤ (argmaxFirst sims).2 := by
  cases sims with
  | nil => exact absurd rfl h
  | cons a t =>
    constructor
    · rcases argFold_mem t a with h1 | h1
      · rw [argmaxFirst, h1]; exact List.mem_cons_self a t
      · exact List.mem_cons_of_mem a h1
    · intro p hp
      obtain ⟨h1, h2⟩ := argFold_ge t a
      rcases List.mem_cons.1 hp with h3 | h3
      · exact h3 ▸ h1
      · exact h2 p h3

/-- Every entry of a `normList` result belongs to the vocabulary. -/
lemma normList_subset (valid : List String) (j : JVal) :
    ∀ x ∈ normList valid j, x ∈ valid := by
  intro x hx
  unfold normList at hx
  cases j with
  | list xs =>
    simp only [JVal.asList] at hx
    obtain ⟨a, _, ha⟩ := List.mem_filterMap.1 hx
    cases a with
    | str m =>
      simp only [JVal.asStr] at ha
      exact List.mem_of_find?_eq_some ha
    | null => simp [JVal.asStr] at ha
    | num q => simp [JVal.asStr] at ha
    | bool b => simp [JVal.asStr] at ha
    | list ys => simp [JVal.asStr] at ha
  | null => simp [JVal.asList] at hx
  | num q => simp [JVal.asList] at hx
  | str s => simp [JVal.asList] at hx
  | bool b => simp [JVal.asList] at hx

/-- `normPrice` only keeps positive extracted numbers, unchanged. -/
lemma normPrice_some {j : JVal} {q : ℚ} (h : normPrice j = some q) :
    j.asNum = some q ∧ 0 < q := by
  cases hn : j.asNum with
  | none => simp [normPrice, hn] at h
  | some v =>
    simp only [normPrice, hn] at h
    split_ifs at h with hv
    injection h with h; subst h; exact ⟨rfl, hv⟩

/-- `normYear` only keeps numbers in `[1900, current_year + 1]`,
truncated to an integer in the same range. -/
lemma normYear_some {cy : ℤ} {j : JVal} {n : ℤ} (h : normYear cy j = some n) :
    1900 ≤ n ∧ n ≤ cy + 1 ∧
    ∃ v, j.asNum = some v ∧ (1900 : ℚ) ≤ v ∧ v ≤ ((cy + 1 : ℤ) : ℚ) ∧ n = pyInt v := by
  cases hn : j.asNum with
  | none => simp [normYear, hn] at h
  | some v =>
    simp only [normYear, hn] at h
    split_ifs at h with hv
    injection h with h
    obtain ⟨hv1, hv2⟩ := hv
    have hnn : (0 : ℚ) ≤ v := le_trans (by norm_num) hv1
    have hpy : pyInt v = ⌊v⌋ := by unfold pyInt; rw [if_pos hnn]
    subst h
    rw [hpy]
    refine ⟨?_, ?_, v, rfl, hv1, hv2, hpy.symm⟩
    · exact Int.le_floor.2 (by exact_mod_cast hv1)
    · have := Int.floor_le_floor hv2
      rwa [Int.floor_intCast] at this

/-- `normMileage` only keeps non-negative numbers, truncated. -/
lemma normMileage_some {j : JVal} {n : ℤ} (h : normMileage j = some n) :
    0 ≤ n ∧ ∃ v, j.asNum = some v ∧ 0 ≤ v ∧ n = pyInt v := by
  cases hn : j.asNum with
  | none => simp [normMileage, hn] at h
  | some v =>
    simp only [normMileage, hn] at h
    split_ifs at h with hv
    injection h with h
    have hpy : pyInt v = ⌊v⌋ := by unfold pyInt; rw [if_pos hv]
    subst h
    rw [hpy]
    exact ⟨Int.le_floor.2 (by exact_mod_cast hv), v, rfl, hv, hpy.symm⟩

/-- `normEngine` only keeps numbers in `[0.5, 10.0]`, unchanged. -/
lemma normEngine_some {j : JVal} {q : ℚ} (h : normEngine j = some q) :
    j.asNum = some q ∧ mkRat 1 2 ≤ q ∧ q ≤ 10 := by
  cases hn : j.asNum with
  | none => simp [normEngine, hn] at h
  | some v =>
    simp only [normEngine, hn] at h
    split_ifs at h with hv
    injection h with h; subst h; exact ⟨rfl, hv.1, hv.2⟩

/-- `normHp` only keeps numbers in `[20, 1500]`, truncated to an integer
in the same range. -/
lemma normHp_some {j : JVal} {n : ℤ} (h : normHp j = some n) :
    20 ≤ n ∧ n ≤ 1500 ∧
    ∃ v, j.asNum = some v ∧ (20 : ℚ) ≤ v ∧ v ≤ 1500 ∧ n = pyInt v := by
  cases hn : j.asNum with
  | none => simp [normHp, hn] at h
  | some v =>
    simp only [normHp, hn] at h
    split_ifs at h with hv
    injection h with h
    obtain ⟨hv1, hv2⟩ := hv
    have hnn : (0 : ℚ) ≤ v := le_trans (by norm_num) hv1
    have hpy : pyInt v = ⌊v⌋ := by unfold pyInt; rw [if_pos hnn]
    subst h
    rw [hpy]
    refine ⟨Int.le_floor.2 (by exact_mod_cast hv1), ?_, v, rfl, hv1, hv2, hpy.symm⟩
    have := Int.floor_le_floor hv2
    rwa [show (1500 : ℚ) = ((1500 : ℤ) : ℚ) by norm_num, Int.floor_intCast] at this

/-- `normTransmission` yields null, `Automatic` or `Manual`. -/
lemma normTransmission_cases (j : JVal) :
    normTransmission j = none ∨ normTransmission j = some "Automatic" ∨
    normTransmission j = some "Manual" := by
  unfold normTransmission
  cases j with
  | str s =>
    simp only [JVal.asStr]
    split_ifs with h1 h2
    · right; left; rfl
    · right; right; rfl
    · left; rfl
  | null => left; rfl
  | num q => left; rfl
  | bool b => left; rfl
  | list xs => left; rfl

/-- Each entry of a `normList` result came from a string entry of the
raw list with the same lowercasing. -/
lemma normList_source (valid : List String) (j : JVal) :
    ∀ x ∈ normList valid j,
      ∃ s, JVal.str s ∈ (j.asList).getD [] ∧ lowerStr s = lowerStr x := by
  intro x hx
  unfold normList at hx
  cases j with
  | list xs =>
    simp only [JVal.asList] at hx ⊢
    obtain ⟨a, ha, hfa⟩ := List.mem_filterMap.1 hx
    cases a with
    | str m =>
      simp only [JVal.asStr] at hfa
      have hpred := List.find?_some hfa
      refine ⟨m, ha, ?_⟩
      simpa [eq_comm] using of_decide_eq_true hpred
    | null => simp [JVal.asStr] at hfa
    | num q => simp [JVal.asStr] at hfa
    | bool b => simp [JVal.asStr] at hfa
    | list ys => simp [JVal.asStr] at hfa
  | null => simp [JVal.asList] at hx
  | num q => simp [JVal.asList] at hx
  | str s => simp [JVal.asList] at hx
  | bool b => simp [JVal.asList] at hx

/-- The normalized intent always lies in the closed intent set. -/
lemma normIntent_mem (j : JVal) : normIntent j ∈ validIntents := by
  unfold normIntent
  cases j <;> simp only [JVal.asStr]
  case str s =>
    split_ifs with h
    · exact h
    · decide
  all_goals decide

/-- A non-string raw intent defaults to `new_query`. -/
lemma normIntent_default_nonstr {j : JVal} (h : j.asStr = none) :
    normIntent j = "new_query" := by
  unfold normIntent
  rw [h]

/-- An unrecognized string intent defaults to `new_query`. -/
lemma normIntent_default_unrecognized {s : String}
    (h : stripStr (lowerStr s) ∉ validIntents) :
    normIntent (JVal.str s) = "new_query" := by
  unfold normIntent
  simp only [JVal.asStr]
  rw [if_neg h]

/-! ## Round-trip of a normalized record into a raw dict (for C5) -/

/-- A nullable float field of the output record, as a raw dict value. -/
def jOfOptQ : Option ℚ → JVal
  | some q => .num q
  | none => .null

/-- A nullable int field of the output record, as a raw dict value. -/
def jOfOptZ : Option ℤ → JVal
  | some n => .num (n : ℚ)
  | none => .null

/-- A nullable string field of the output record, as a raw dict value. -/
def jOfOptS : Option String → JVal
  | some s => .str s
  | none => .null

/-- A string-list field of the output record, as a raw dict value. -/
def jOfStrList (l : List String) : JVal := .list (l.map .str)

/-- A normalized record re-read as a raw dict, field for field: this is
what `process_parameters` sees when fed its own (JSON-serialized)
output. -/
def paramsToRaw (r : Params) : RawParams :=
  { minPrice := jOfOptQ r.minPrice
    maxPrice := jOfOptQ r.maxPrice
    minYear := jOfOptZ r.minYear
    maxYear := jOfOptZ r.maxYear
    maxMileage := jOfOptZ r.maxMileage
    preferredMakes := jOfStrList r.preferredMakes
    preferredFuelTypes := jOfStrList r.preferredFuelTypes
    preferredVehicleTypes := jOfStrList r.preferredVehicleTypes
    desiredFeatures := jOfStrList r.desiredFeatures
    isOffTopic := .bool r.isOffTopic
    offTopicResponse := jOfOptS r.offTopicResponse
    clarificationNeeded := .bool r.clarificationNeeded
    clarificationNeededFor := jOfStrList r.clarificationNeededFor
    retrieverSuggestion := jOfOptS r.retrieverSuggestion
    matchedCategory := jOfOptS r.matchedCategory
    intent := .str r.intent
    transmission := jOfOptS r.transmission
    minEngineSize := jOfOptQ r.minEngineSize
    maxEngineSize := jOfOptQ r.maxEngineSize
    minHorsepower := jOfOptZ r.minHorsepower
    maxHorsepower := jOfOptZ r.maxHorsepower
    explicitly_negated_makes := jOfStrList r.explicitly_negated_makes
    explicitly_negated_vehicle_types := jOfStrList r.explicitly_negated_vehicle_types
    explicitly_negated_fuel_types := jOfStrList r.explicitly_negated_fuel_types }

/-- `int()` of an integer cast into ℚ is the integer itself. -/
lemma pyInt_intCast (n : ℤ) : pyInt (n : ℚ) = n := by
  unfold pyInt
  split_ifs with h
  · exact Int.floor_intCast n
  · exact Int.ceil_intCast n

/-- Re-normalizing a normalized price is the identity. -/
lemma normPrice_idem (j : JVal) : normPrice (jOfOptQ (normPrice j)) = normPrice j := by
  cases h : normPrice j with
  | none => rfl
  | some q =>
    obtain ⟨-, hq⟩ := normPrice_some h
    show normPrice (.num q) = some q
    simp only [normPrice, JVal.asNum]
    rw [if_pos hq]

/-- Re-normalizing a normalized year is the identity. -/
lemma normYear_idem (cy : ℤ) (j : JVal) :
    normYear cy (jOfOptZ (normYear cy j)) = normYear cy j := by
  cases h : normYear cy j with
  | none => rfl
  | some n =>
    obtain ⟨h1, h2, v, -, -, -, -⟩ := normYear_some h
    show normYear cy (.num (n : ℚ)) = some n
    simp only [normYear, JVal.asNum]
    rw [if_pos ⟨by exact_mod_cast h1, by exact_mod_cast h2⟩, pyInt_intCast]

/-- Re-normalizing a normalized mileage is the identity. -/
lemma normMileage_idem (j : JVal) :
    normMileage (jOfOptZ (normMileage j)) = normMileage j := by
  cases h : normMileage j with
  | none => rfl
  | some n =>
    obtain ⟨h1, -⟩ := normMileage_some h
    show normMileage (.num (n : ℚ)) = some n
    simp only [normMileage, JVal.asNum]
    rw [if_pos (by exact_mod_cast h1), pyInt_intCast]

/-- Re-normalizing a normalized engine size is the identity. -/
lemma normEngine_idem (j : JVal) :
    normEngine (jOfOptQ (normEngine j)) = normEngine j := by
  cases h : normEngine j with
  | none => rfl
  | some q =>
    obtain ⟨-, h1, h2⟩ := normEngine_some h
    show normEngine (.num q) = some q
    simp only [normEngine, JVal.asNum]
    rw [if_pos ⟨h1, h2⟩]

/-- Re-normalizing a normalized horsepower is the identity. -/
lemma normHp_idem (j : JVal) : normHp (jOfOptZ (normHp j)) = normHp j := by
  cases h : normHp j with
  | none => rfl
  | some n =>
    obtain ⟨h1, h2, -⟩ := normHp_some h
    show normHp (.num (n : ℚ)) = some n
    simp only [normHp, JVal.asNum]
    rw [if_pos ⟨by exact_mod_cast h1, by exact_mod_cast h2⟩, pyInt_intCast]

/-- Re-reading a boolean flag is the identity. -/
lemma normFlag_idem (j : JVal) : normFlag (.bool (normFlag j)) = normFlag j := by
  cases j <;> rfl

/-- Re-reading an optional string field is the identity. -/
lemma normOptStr_idem (j : JVal) :
    normOptStr (jOfOptS (normOptStr j)) = normOptStr j := by
  cases j <;> rfl

/-- A `filterMap` that fixes every element of a list is the identity. -/
lemma filterMap_eq_self_of {α : Type} (h : α → Option α) (l : List α)
    (hx : ∀ x ∈ l, h x = some x) : l.filterMap h = l := by
  induction l with
  | nil => rfl
  | cons a t ih =>
    simp only [List.filterMap_cons, hx a (List.mem_cons_self a t)]
    exact congrArg (a :: ·) (ih (fun x hxt => hx x (List.mem_cons_of_mem a hxt)))

/-- `normStrList` applied to a plain string list keeps it unchanged. -/
lemma normStrList_of_strings (l : List String) :
    normStrList (jOfStrList l) = l := by
  unfold normStrList jOfStrList
  simp only [JVal.asList]
  rw [List.filterMap_map]
  exact filterMap_eq_self_of _ l (fun x hx => rfl)

/-- Re-reading a kept string list is the identity. -/
lemma normStrList_idem (j : JVal) :
    normStrList (jOfStrList (normStrList j)) = normStrList j :=
  normStrList_of_strings _

/-- Normalized desired features are non-empty after stripping. -/
lemma normFeatures_prop (j : JVal) :
    ∀ f ∈ normFeatures j, ¬ stripL f.data = [] := by
  intro f hf
  unfold normFeatures at hf
  cases j with
  | list xs =>
    simp only [JVal.asList] at hf
    obtain ⟨a, -, hfa⟩ := List.mem_filterMap.1 hf
    cases a with
    | str m =>
      simp only [JVal.asStr] at hfa
      split_ifs at hfa with hs
      injection hfa with hfa
      subst hfa
      exact hs
    | null => simp [JVal.asStr] at hfa
    | num q => simp [JVal.asStr] at hfa
    | bool b => simp [JVal.asStr] at hfa
    | list ys => simp [JVal.asStr] at hfa
  | null => simp [JVal.asList] at hf
  | num q => simp [JVal.asList] at hf
  | str s => simp [JVal.asList] at hf
  | bool b => simp [JVal.asList] at hf

/-- `normFeatures` keeps a list of non-empty strings unchanged. -/
lemma normFeatures_of_strings (l : List String)
    (hl : ∀ f ∈ l, ¬ stripL f.data = []) :
    normFeatures (jOfStrList l) = l := by
  unfold normFeatures jOfStrList
  simp only [JVal.asList]
  rw [List.filterMap_map]
  refine filterMap_eq_self_of _ l (fun x hx => ?_)
  simp only [Function.comp_apply, JVal.asStr]
  rw [if_neg (hl x hx)]

/-- Re-normalizing normalized desired features is the identity. -/
lemma normFeatures_idem (j : JVal) :
    normFeatures (jOfStrList (normFeatures j)) = normFeatures j :=
  normFeatures_of_strings _ (normFeatures_prop j)

/-- Canonical lookup fixes every manufacturer (lowercasings are
pairwise distinct in the vocabulary). -/
lemma canonLookup_self_makes :
    ∀ x ∈ VALID_MANUFACTURERS, canonLookup VALID_MANUFACTURERS x = some x := by
  decide

/-- Canonical lookup fixes every fuel type. -/
lemma canonLookup_self_fuels :
    ∀ x ∈ VALID_FUEL_TYPES, canonLookup VALID_FUEL_TYPES x = some x := by
  decide

/-- Canonical lookup fixes every vehicle type. -/
lemma canonLookup_self_types :
    ∀ x ∈ VALID_VEHICLE_TYPES, canonLookup VALID_VEHICLE_TYPES x = some x := by
  decide

/-- `normList` keeps a list of canonical vocabulary entries unchanged. -/
lemma normList_of_strings (valid : List String) (l : List String)
    (hl : ∀ x ∈ l, canonLookup valid x = some x) :
    normList valid (jOfStrList l) = l := by
  unfold normList jOfStrList
  simp only [JVal.asList]
  rw [List.filterMap_map]
  refine filterMap_eq_self_of _ l (fun x hx => ?_)
  simp only [Function.comp_apply, JVal.asStr]
  exact hl x hx

/-- Re-normalizing a normalized vocabulary list is the identity. -/
lemma normList_idem (valid : List String)
    (hu : ∀ x ∈ valid, canonLookup valid x = some x) (j : JVal) :
    normList valid (jOfStrList (normList valid j)) = normList valid j :=
  normList_of_strings valid _
    (fun x hx => hu x (normList_subset valid j x hx))

/-- `normIntent` fixes any member of the closed intent set. -/
lemma normIntent_of_valid {t : String} (ht : t ∈ validIntents) :
    normIntent (.str t) = t := by
  have hfix : ∀ u ∈ validIntents, stripStr (lowerStr u) = u := by decide
  simp only [normIntent, JVal.asStr]
  rw [hfix t ht]
  exact if_pos ht

/-- Re-normalizing a normalized intent is the identity. -/
lemma normIntent_idem (j : JVal) :
    normIntent (.str (normIntent j)) = normIntent j :=
  normIntent_of_valid (normIntent_mem j)

/-- Re-normalizing a normalized transmission is the identity. -/
lemma normTransmission_idem (j : JVal) :
    normTransmission (jOfOptS (normTransmission j)) = normTransmission j := by
  rcases normTransmission_cases j with h | h | h <;> rw [h] <;> rfl

/-- The clarification overrides rewrite only `clarificationNeeded` and
`clarificationNeededFor`; every other field is preserved. -/
lemma clarificationOverrides_preserve (pr : Params) (qf : String) (fp : Params) :
    (clarificationOverrides pr qf fp).minPrice = fp.minPrice ∧
    (clarificationOverrides pr qf fp).maxPrice = fp.maxPrice ∧
    (clarificationOverrides pr qf fp).minYear = fp.minYear ∧
    (clarificationOverrides pr qf fp).maxYear = fp.maxYear ∧
    (clarificationOverrides pr qf fp).maxMileage = fp.maxMileage ∧
    (clarificationOverrides pr qf fp).preferredMakes = fp.preferredMakes ∧
    (clarificationOverrides pr qf fp).preferredFuelTypes = fp.preferredFuelTypes ∧
    (clarificationOverrides pr qf fp).preferredVehicleTypes = fp.preferredVehicleTypes ∧
    (clarificationOverrides pr qf fp).desiredFeatures = fp.desiredFeatures ∧
    (clarificationOverrides pr qf fp).isOffTopic = fp.isOffTopic ∧
    (clarificationOverrides pr qf fp).offTopicResponse = fp.offTopicResponse ∧
    (clarificationOverrides pr qf fp).retrieverSuggestion = fp.retrieverSuggestion ∧
    (clarificationOverrides pr qf fp).matchedCategory = fp.matchedCategory ∧
    (clarificationOverrides pr qf fp).intent = fp.intent ∧
    (clarificationOverrides pr qf fp).transmission = fp.transmission ∧
    (clarificationOverrides pr qf fp).minEngineSize = fp.minEngineSize ∧
    (clarificationOverrides pr qf fp).maxEngineSize = fp.maxEngineSize ∧
    (clarificationOverrides pr qf fp).minHorsepower = fp.minHorsepower ∧
    (clarificationOverrides pr qf fp).maxHorsepower = fp.maxHorsepower ∧
    (clarificationOverrides pr qf fp).explicitly_negated_makes
      = fp.explicitly_negated_makes ∧
    (clarificationOverrides pr qf fp).explicitly_negated_vehicle_types
      = fp.explicitly_negated_vehicle_types ∧
    (clarificationOverrides pr qf fp).explicitly_negated_fuel_types
      = fp.explicitly_negated_fuel_types := by
  simp only [clarificationOverrides]
  split_ifs <;> simp

/-- A `!b = true` Boolean hypothesis gives `b = false`. -/
lemma bool_not_true {b : Bool} (h : (!b) = true) : b = false := by
  cases b
  · rfl
  · exact absurd h (by decide)

/-- A positive term is never one of the negated terms it was computed
against. -/
lemma find_positive_terms_not_negated (t : String) (valid neg : List String) :
    ∀ x ∈ find_positive_terms t valid neg, x ∉ neg := by
  intro x hx hmem
  unfold find_positive_terms at hx
  have h2 := (List.mem_filter.1 hx).2
  rw [Bool.and_eq_true] at h2
  have h4 : (neg.map (fun t => lowerL t.data)).contains (lowerL x.data) = true :=
    List.elem_eq_true_of_mem (List.mem_map_of_mem _ hmem)
  exact absurd (h4.symm.trans (bool_not_true h2.1)) (by decide)

/-- The corrected list merge removes every term negated this turn. -/
lemma merge_list_param_corrected_not_negated (pn ck : String)
    (llm pos neg : List String) (b : Bool) (ctxl : List String) :
    ∀ x ∈ merge_list_param_corrected pn ck llm pos neg b ctxl, x ∉ neg := by
  intro x hx hmem
  unfold merge_list_param_corrected at hx
  split_ifs at hx
  · exact absurd hx (List.not_mem_nil x)
  · have h2 := (List.mem_filter.1 hx).2
    have h4 : neg.contains x = true := List.elem_eq_true_of_mem hmem
    exact absurd (h4.symm.trans (bool_not_true h2)) (by decide)

/-- Membership characterization of the corrected list merge outside the
pure-rejection case. -/
lemma merge_list_param_corrected_mem (pn ck : String)
    (llm pos neg : List String) (b : Bool) (ctxl : List String)
    (hno : ¬(b = true ∧ neg ≠ [] ∧ pos = [])) :
    ∀ x, x ∈ merge_list_param_corrected pn ck llm pos neg b ctxl ↔
      ((x ∈ llm ∨ x ∈ ctxl) ∧ x ∉ neg) := by
  intro x
  unfold merge_list_param_corrected
  rw [if_neg]
  · simp only [List.mem_filter, List.mem_dedup, List.mem_append]
    constructor
    · rintro ⟨h1, h2⟩
      refine ⟨h1, fun hmem => ?_⟩
      have h4 : neg.contains x = true := List.elem_eq_true_of_mem hmem
      exact absurd (h4.symm.trans (bool_not_true h2)) (by decide)
    · rintro ⟨h1, h2⟩
      refine ⟨h1, ?_⟩
      cases h4 : neg.contains x with
      | false => rfl
      | true => exact absurd (List.mem_of_elem_eq_true h4) h2
  · intro hcon
    rw [Bool.and_eq_true, Bool.and_eq_true] at hcon
    refine hno ⟨hcon.1.1, ?_, ?_⟩
    · intro hne
      have := hcon.1.2
      rw [hne] at this
      exact absurd this (by decide)
    · cases hp : pos with
      | nil => rfl
      | cons a tl =>
        have := hcon.2
        rw [hp] at this
        simp at this

/-- The pure-rejection branch of the corrected list merge empties the
list. -/
lemma merge_list_param_corrected_pure_rejection (pn ck : String)
    (llm pos neg : List String) (ctxl : List String)
    (hneg : neg ≠ []) (hpos : pos = []) :
    merge_list_param_corrected pn ck llm pos neg true ctxl = [] := by
  unfold merge_list_param_corrected
  have hc : (true && !neg.isEmpty && pos.isEmpty) = true := by
    rw [hpos]
    cases hn : neg with
    | nil => exact absurd hn hneg
    | cons a tl => rfl
  rw [hc]
  rfl

/-- Intersection with a list disjoint from it is empty. -/
lemma inter_nil_of_disjoint {l1 l2 : List String} (h : ∀ x ∈ l1, x ∉ l2) :
    l1 ∩ l2 = [] := by
  rw [List.inter_eq_nil_iff_disjoint]
  intro a ha hb
  exact h a ha hb

/-- The three possible results of `run_llm_with_history` on a parsed
LLM output: the guardrail fallback, the merged record, or the
validity fallback. -/
lemma run_llm_with_history_cases (cy : ℤ) (raw : RawParams) (uq : String)
    (ctx : Ctx) :
    run_llm_with_history cy (some raw) uq ctx
      = confusedFallback ["implausible_result"] ∨
    run_llm_with_history cy (some raw) uq ctx
      = mergeStage (process_parameters cy raw) uq ctx ∨
    run_llm_with_history cy (some raw) uq ctx = confusedFallback ["reset"] := by
  unfold run_llm_with_history
  dsimp only
  split_ifs with h1 h2
  · left; rfl
  · right; left; rfl
  · right; right; rfl

/-- In the merged record, each preferred list is disjoint from its
negated list. -/
lemma mergeStage_disjoint (pr : Params) (uq : String) (ctx : Ctx) :
    (∀ x ∈ (mergeStage pr uq ctx).preferredMakes,
      x ∉ (mergeStage pr uq ctx).explicitly_negated_makes) ∧
    (∀ x ∈ (mergeStage pr uq ctx).preferredVehicleTypes,
      x ∉ (mergeStage pr uq ctx).explicitly_negated_vehicle_types) ∧
    (∀ x ∈ (mergeStage pr uq ctx).preferredFuelTypes,
      x ∉ (mergeStage pr uq ctx).explicitly_negated_fuel_types) := by
  obtain ⟨-, -, -, -, -, hm, hf, ht, -, -, -, -, -, -, -, -, -, -, -, hnm, hnt, hnf⟩ :=
    clarificationOverrides_preserve pr (extract_newest_user_fragment uq)
      (mergeCore pr uq ctx)
  unfold mergeStage
  rw [hm, hf, ht, hnm, hnt, hnf]
  refine ⟨?_, ?_, ?_⟩ <;> intro x hx hneg <;>
    simp only [mergeCore] at hx hneg <;> split at hx
  · exact find_positive_terms_not_negated _ _ _ x hx hneg
  · exact merge_list_param_corrected_not_negated _ _ _ _ _ _ _ x hx hneg
  · exact find_positive_terms_not_negated _ _ _ x hx hneg
  · exact merge_list_param_corrected_not_negated _ _ _ _ _ _ _ x hx hneg
  · exact find_positive_terms_not_negated _ _ _ x hx hneg
  · exact merge_list_param_corrected_not_negated _ _ _ _ _ _ _ x hx hneg

/-- The scalar-merge step, characterized with propositional
conditions: grounded LLM value, else context carry-over for
refine/clarify/add intents, else null. -/
lemma mergeScalar_eq_ite {α : Type} (llm : Option α) (m : Bool) (fi : String)
    (cv : Option α) :
    mergeScalar llm m fi cv =
      (if llm.isSome = true ∧ m = true then llm
       else if (fi = "refine_criteria" ∨ fi = "clarify" ∨ fi = "add_criteria")
               ∧ cv.isSome = true then cv
       else none) := by
  unfold mergeScalar
  simp only [Bool.and_eq_true, Bool.or_eq_true, beq_iff_eq, or_assoc]

/-- On a simple-negation query all three positive-term sets are empty. -/
lemma isSimpleNegation_pos_empty (uq : String)
    (h : isSimpleNegation uq = true) :
    posMakes uq = [] ∧ posTypes uq = [] ∧ posFuels uq = [] := by
  unfold isSimpleNegation at h
  rw [Bool.and_eq_true] at h
  have h1 := bool_not_true h.1
  rcases Bool.or_eq_false_iff.1 h1 with ⟨h2, h3⟩
  rcases Bool.or_eq_false_iff.1 h2 with ⟨h4, h5⟩
  refine ⟨?_, ?_, ?_⟩
  · cases hp : posMakes uq with
    | nil => rfl
    | cons a t => rw [hp] at h4; simp at h4
  · cases hp : posTypes uq with
    | nil => rfl
    | cons a t => rw [hp] at h5; simp at h5
  · cases hp : posFuels uq with
    | nil => rfl
    | cons a t => rw [hp] at h3; simp at h3

/-! ## Claims -/

/-- Claim C6.  For every record produced by `run_llm_with_history`, the
preferred list and the explicitly negated list of each vocabulary
category are disjoint (their list intersection is empty). -/
theorem c6_preferred_negated_disjoint (cy : ℤ) (extracted : Option RawParams)
    (uq : String) (ctx : Ctx) :
    (run_llm_with_history cy extracted uq ctx).preferredMakes ∩
      (run_llm_with_history cy extracted uq ctx).explicitly_negated_makes = [] ∧
    (run_llm_with_history cy extracted uq ctx).preferredVehicleTypes ∩
      (run_llm_with_history cy extracted uq ctx).explicitly_negated_vehicle_types = [] ∧
    (run_llm_with_history cy extracted uq ctx).preferredFuelTypes ∩
      (run_llm_with_history cy extracted uq ctx).explicitly_negated_fuel_types = [] := by
  cases extracted with
  | none => exact ⟨rfl, rfl, rfl⟩
  | some raw =>
    rcases run_llm_with_history_cases cy raw uq ctx with h | h | h <;> rw [h]
    · exact ⟨rfl, rfl, rfl⟩
    · obtain ⟨h1, h2, h3⟩ := mergeStage_disjoint (process_parameters cy raw) uq ctx
      exact ⟨inter_nil_of_disjoint h1, inter_nil_of_disjoint h2,
        inter_nil_of_disjoint h3⟩
    · exact ⟨rfl, rfl, rfl⟩

/-- Claim C3, amended.  For every normalized extraction in which
minPrice > maxPrice (both non-null), or minYear > maxYear, or a known
luxury make is paired with maxPrice < 20000, `run_llm_with_history`
discards the result and returns the confused-fallback record with
intent `CONFUSED_FALLBACK` and `clarificationNeeded = true`.  The
guardrail checks only the single-turn normalized extraction before
merging; a merged record combining a grounded extracted bound with a
context-carried opposite bound can still contain minPrice > maxPrice
(see the counterexample). -/
theorem c3_guardrail_amended (cy : ℤ) (raw : RawParams) (uq : String)
    (ctx : Ctx) (h : validationFailed (process_parameters cy raw) = true) :
    run_llm_with_history cy (some raw) uq ctx
      = confusedFallback ["implausible_result"] ∧
    (run_llm_with_history cy (some raw) uq ctx).intent = "CONFUSED_FALLBACK" ∧
    (run_llm_with_history cy (some raw) uq ctx).clarificationNeeded = true := by
  have he : run_llm_with_history cy (some raw) uq ctx
      = confusedFallback ["implausible_result"] := by
    unfold run_llm_with_history
    dsimp only
    rw [if_pos h]
  exact ⟨he, by rw [he]; rfl, by rw [he]; rfl⟩

/-- The normalized extraction of spec Scenario E:
`minPrice=40000, maxPrice=20000`. -/
def c3rawE : RawParams :=
  { minPrice := .num 40000
    maxPrice := .num 20000
    intent := .str "new_query" }

/-- Claim C3, witness (Scenario E): the contradictory price range trips
the guardrail and the returned record is the confused fallback. -/
theorem c3_guardrail_amended_witness :
    validationFailed (process_parameters 2026 c3rawE) = true ∧
    (run_llm_with_history 2026 (some c3rawE) "something under 20000" {}).intent
      = "CONFUSED_FALLBACK" ∧
    (run_llm_with_history 2026 (some c3rawE) "something under 20000"
      {}).clarificationNeeded = true := by
  refine ⟨by decide, ?_⟩
  exact (c3_guardrail_amended 2026 c3rawE "something under 20000" {}
    (by decide)).2

/-- The C3 counterexample inputs: the turn states only a grounded
minimum price of 20000 with intent `refine_criteria`, while the
confirmed context carries `confirmedMaxPrice = 10000`. -/
def c3raw : RawParams :=
  { intent := .str "refine_criteria"
    minPrice := .num 20000 }

/-- The C3 counterexample utterance. -/
def c3query : String := "minimum price 20000"

/-- The C3 counterexample context. -/
def c3ctx : Ctx := { confirmedMaxPrice := some 10000 }

/-- Claim C3, counterexample.  The claim says the service never returns
a record whose non-null range bounds satisfy min > max; but merging a
grounded extracted `minPrice=20000` with the context-carried
`maxPrice=10000` yields exactly such a record (the guardrail ran before
the merge, on the extraction alone, where `maxPrice` was still null). -/
theorem c3_counterexample :
    (run_llm_with_history 2026 (some c3raw) c3query c3ctx).minPrice
      = some 20000 ∧
    (run_llm_with_history 2026 (some c3raw) c3query c3ctx).maxPrice
      = some 10000 ∧
    (10000 : ℚ) < 20000 := by
  refine ⟨by decide, by decide, by decide⟩

/-- Claim C4.  Normalization copies a field into the output only if it
passes its type and range check: prices are positive numbers; year
fields become integers in `[1900, current_year + 1]` obtained by
truncating an in-range number; mileage is non-negative; engine size lies
in `[0.5, 10.0]`; horsepower in `[20, 1500]`; transmission is null,
`Automatic` or `Manual`; list fields are filtered to their vocabulary
case-insensitively and re-emitted in canonical casing; the intent lies
in a closed set with default `new_query` when absent or unrecognized.
(The `except` fallback to an all-default `intent="error"` record is
unreachable in this total embedding, so normalization is total.) -/
theorem c4_normalization_checks (current_year : ℤ) (p : RawParams) :
    (∀ q, (process_parameters current_year p).minPrice = some q →
      p.minPrice.asNum = some q ∧ 0 < q) ∧
    (∀ q, (process_parameters current_year p).maxPrice = some q →
      p.maxPrice.asNum = some q ∧ 0 < q) ∧
    (∀ n, (process_parameters current_year p).minYear = some n →
      1900 ≤ n ∧ n ≤ current_year + 1 ∧
      ∃ v, p.minYear.asNum = some v ∧ (1900 : ℚ) ≤ v ∧
        v ≤ ((current_year + 1 : ℤ) : ℚ) ∧ n = pyInt v) ∧
    (∀ n, (process_parameters current_year p).maxYear = some n →
      1900 ≤ n ∧ n ≤ current_year + 1 ∧
      ∃ v, p.maxYear.asNum = some v ∧ (1900 : ℚ) ≤ v ∧
        v ≤ ((current_year + 1 : ℤ) : ℚ) ∧ n = pyInt v) ∧
    (∀ n, (process_parameters current_year p).maxMileage = some n →
      0 ≤ n ∧ ∃ v, p.maxMileage.asNum = some v ∧ 0 ≤ v ∧ n = pyInt v) ∧
    (∀ q, (process_parameters current_year p).minEngineSize = some q →
      p.minEngineSize.asNum = some q ∧ mkRat 1 2 ≤ q ∧ q ≤ 10) ∧
    (∀ q, (process_parameters current_year p).maxEngineSize = some q →
      p.maxEngineSize.asNum = some q ∧ mkRat 1 2 ≤ q ∧ q ≤ 10) ∧
    (∀ n, (process_parameters current_year p).minHorsepower = some n →
      20 ≤ n ∧ n ≤ 1500 ∧
      ∃ v, p.minHorsepower.asNum = some v ∧ (20 : ℚ) ≤ v ∧ v ≤ 1500 ∧
        n = pyInt v) ∧
    (∀ n, (process_parameters current_year p).maxHorsepower = some n →
      20 ≤ n ∧ n ≤ 1500 ∧
      ∃ v, p.maxHorsepower.asNum = some v ∧ (20 : ℚ) ≤ v ∧ v ≤ 1500 ∧
        n = pyInt v) ∧
    ((process_parameters current_year p).transmission = none ∨
     (process_parameters current_year p).transmission = some "Automatic" ∨
     (process_parameters current_year p).transmission = some "Manual") ∧
    (∀ x ∈ (process_parameters current_year p).preferredMakes,
      x ∈ VALID_MANUFACTURERS ∧
      ∃ s, JVal.str s ∈ (p.preferredMakes.asList).getD [] ∧
        lowerStr s = lowerStr x) ∧
    (∀ x ∈ (process_parameters current_year p).preferredFuelTypes,
      x ∈ VALID_FUEL_TYPES ∧
      ∃ s, JVal.str s ∈ (p.preferredFuelTypes.asList).getD [] ∧
        lowerStr s = lowerStr x) ∧
    (∀ x ∈ (process_parameters current_year p).preferredVehicleTypes,
      x ∈ VALID_VEHICLE_TYPES ∧
      ∃ s, JVal.str s ∈ (p.preferredVehicleTypes.asList).getD [] ∧
        lowerStr s = lowerStr x) ∧
    ((process_parameters current_year p).intent ∈ validIntents) ∧
    (p.intent.asStr = none →
      (process_parameters current_year p).intent = "new_query") ∧
    (∀ s, p.intent.asStr = some s → stripStr (lowerStr s) ∉ validIntents →
      (process_parameters current_year p).intent = "new_query") := by
  refine ⟨fun q h => normPrice_some h, fun q h => normPrice_some h,
    fun n h => normYear_some h, fun n h => normYear_some h,
    fun n h => normMileage_some h,
    fun q h => normEngine_some h, fun q h => normEngine_some h,
    fun n h => normHp_some h, fun n h => normHp_some h,
    normTransmission_cases _,
    fun x hx => ⟨normList_subset _ _ x hx, normList_source _ _ x hx⟩,
    fun x hx => ⟨normList_subset _ _ x hx, normList_source _ _ x hx⟩,
    fun x hx => ⟨normList_subset _ _ x hx, normList_source _ _ x hx⟩,
    normIntent_mem _,
    fun h => normIntent_default_nonstr h,
    fun s hs h => ?_⟩
  show normIntent p.intent = "new_query"
  simp only [normIntent, hs]
  rw [if_neg h]

/-- A concrete raw extraction used by the C4 witness: a valid price, a
fractional year, a mixed-case make list with one out-of-vocabulary
entry, and a mixed-case intent. -/
def c4raw : RawParams :=
  { minPrice := .num 15000
    minYear := .num (mkRat 4031 2)
    preferredMakes := .list [.str "toyota", .str "Ferrari", .num 3]
    intent := .str "REFINE_CRITERIA" }

/-- Claim C4, witness: instantiating the checks at `c4raw` (with
current year 2026): the kept `minPrice` is the positive extracted
15000, the kept `minYear` is in range, and the kept make `Toyota` is
canonical vocabulary casing of the raw entry `toyota`. -/
theorem c4_normalization_checks_witness :
    (c4raw.minPrice.asNum = some 15000 ∧ (0 : ℚ) < 15000) ∧
    (1900 ≤ (2015 : ℤ) ∧ (2015 : ℤ) ≤ 2026 + 1 ∧
      ∃ v, c4raw.minYear.asNum = some v ∧ (1900 : ℚ) ≤ v ∧
        v ≤ ((2026 + 1 : ℤ) : ℚ) ∧ (2015 : ℤ) = pyInt v) ∧
    ("Toyota" ∈ VALID_MANUFACTURERS ∧
      ∃ s, JVal.str s ∈ (c4raw.preferredMakes.asList).getD [] ∧
        lowerStr s = lowerStr "Toyota") := by
  obtain ⟨h1, -, h3, -, -, -, -, -, -, -, h11, -⟩ :=
    c4_normalization_checks 2026 c4raw
  exact ⟨h1 15000 (by decide), h3 2015 (by decide),
    h11 "Toyota" (by decide)⟩

/-- The raw LLM output of the C1 counterexample: `refine_criteria` with
a (hallucinated) `Petrol` fuel preference. -/
def c1raw : RawParams :=
  { intent := .str "refine_criteria"
    preferredFuelTypes := .list [.str "Petrol"]
    preferredVehicleTypes := .list [.str "SUV"] }

/-- The C1 counterexample utterance (same shape as a repository test). -/
def c1query : String := "I want an SUV, but not diesel"

/-- Claim C1, counterexample.  The utterance negates `Diesel` (a fuel)
and mentions no positive fuel term, so by the claim the merged fuel
list should be empty regardless of context; but because a positive term
of another category (`SUV`) is present, the code does not treat this as
a simple-negation query and the merged fuel list keeps the extracted
`Petrol`. -/
theorem c1_counterexample :
    negFuels c1query = ["Diesel"] ∧
    posFuels c1query = [] ∧
    finalIntent (process_parameters 2026 c1raw) c1query ≠ "new_query" ∧
    (mergeStage (process_parameters 2026 c1raw) c1query {}).preferredFuelTypes
      = ["Petrol"] := by
  refine ⟨by decide, by decide, by decide, by decide⟩

/-- Claim C1, amended.  For every merge of list-type slots: if the
final intent is `new_query`, the merged list equals the current
utterance's positive-term set; otherwise the merged list equals
(LLM-extracted list union confirmed-context list) minus the terms
negated this turn; the empty-list special case fires only on a
pure-rejection query, i.e. when a category has negated terms and NO
category has any positive term (not merely the category itself). -/
theorem c1_list_merge_amended (processed : Params) (uq : String) (ctx : Ctx) :
    (finalIntent processed uq = "new_query" →
      (mergeStage processed uq ctx).preferredMakes = posMakes uq ∧
      (mergeStage processed uq ctx).preferredVehicleTypes = posTypes uq ∧
      (mergeStage processed uq ctx).preferredFuelTypes = posFuels uq) ∧
    (finalIntent processed uq ≠ "new_query" → isSimpleNegation uq = true →
      (negMakes uq ≠ [] → (mergeStage processed uq ctx).preferredMakes = []) ∧
      (negTypes uq ≠ [] →
        (mergeStage processed uq ctx).preferredVehicleTypes = []) ∧
      (negFuels uq ≠ [] →
        (mergeStage processed uq ctx).preferredFuelTypes = [])) ∧
    (finalIntent processed uq ≠ "new_query" →
      (¬(isSimpleNegation uq = true ∧ negMakes uq ≠ [] ∧ posMakes uq = []) →
        ∀ x, x ∈ (mergeStage processed uq ctx).preferredMakes ↔
          ((x ∈ processed.preferredMakes ∨ x ∈ ctx.confirmedMakes)
            ∧ x ∉ negMakes uq)) ∧
      (¬(isSimpleNegation uq = true ∧ negTypes uq ≠ [] ∧ posTypes uq = []) →
        ∀ x, x ∈ (mergeStage processed uq ctx).preferredVehicleTypes ↔
          ((x ∈ processed.preferredVehicleTypes
              ∨ x ∈ ctx.confirmedVehicleTypes) ∧ x ∉ negTypes uq)) ∧
      (¬(isSimpleNegation uq = true ∧ negFuels uq ≠ [] ∧ posFuels uq = []) →
        ∀ x, x ∈ (mergeStage processed uq ctx).preferredFuelTypes ↔
          ((x ∈ processed.preferredFuelTypes ∨ x ∈ ctx.confirmedFuelTypes)
            ∧ x ∉ negFuels uq))) := by
  obtain ⟨-, -, -, -, -, hm, hf, ht, -, -, -, -, -, -, -, -, -, -, -, -, -, -⟩ :=
    clarificationOverrides_preserve processed
      (extract_newest_user_fragment uq) (mergeCore processed uq ctx)
  have hs : mergeStage processed uq ctx =
      clarificationOverrides processed (extract_newest_user_fragment uq)
        (mergeCore processed uq ctx) := rfl
  rw [hs, hm, hf, ht]
  refine ⟨?_, ?_, ?_⟩
  · intro hni
    simp [mergeCore, hni]
  · intro hni hsn
    have hne : (finalIntent processed uq == "new_query") = false := by
      rw [beq_eq_false_iff_ne]
      exact hni
    obtain ⟨hp1, hp2, hp3⟩ := isSimpleNegation_pos_empty uq hsn
    simp only [mergeCore, hne, Bool.false_eq_true, if_false]
    refine ⟨fun hnm => ?_, fun hnt => ?_, fun hnf => ?_⟩
    · rw [hsn]
      exact merge_list_param_corrected_pure_rejection _ _ _ _ _ _ hnm hp1
    · rw [hsn]
      exact merge_list_param_corrected_pure_rejection _ _ _ _ _ _ hnt hp2
    · rw [hsn]
      exact merge_list_param_corrected_pure_rejection _ _ _ _ _ _ hnf hp3
  · intro hni
    have hne : (finalIntent processed uq == "new_query") = false := by
      rw [beq_eq_false_iff_ne]
      exact hni
    simp only [mergeCore, hne, Bool.false_eq_true, if_false]
    exact ⟨fun hno => merge_list_param_corrected_mem _ _ _ _ _ _ _ hno,
      fun hno => merge_list_param_corrected_mem _ _ _ _ _ _ _ hno,
      fun hno => merge_list_param_corrected_mem _ _ _ _ _ _ _ hno⟩

/-- The raw LLM output and utterance of the C1 witness: a fresh search
for a Toyota SUV. -/
def c1nraw : RawParams :=
  { intent := .str "new_query"
    preferredMakes := .list [.str "Toyota"] }

/-- Claim C1, witness: on the fresh-search utterance `toyota suv` with
intent `new_query`, the merged make list is exactly the positive-term
set of the utterance (here `Toyota`). -/
theorem c1_list_merge_amended_witness :
    (mergeStage (process_parameters 2026 c1nraw) "toyota suv" {}).preferredMakes
      = posMakes "toyota suv" ∧
    posMakes "toyota suv" = ["Toyota"] := by
  refine ⟨?_, by decide⟩
  exact (c1_list_merge_amended (process_parameters 2026 c1nraw)
    "toyota suv" {}).1 (by decide) |>.1

/-- Claim C2.  For every scalar slot during merging: if the normalized
extraction has a non-null value and the current utterance fragment
contains one of that slot's keywords, the merged value is the extracted
value; else if the final intent is refine_criteria, clarify or
add_criteria and the confirmed context holds a prior value, the merged
value is the context value; else the merged value is null.  In
particular a non-null extracted value with no supporting keyword is
never kept. -/
theorem c2_scalar_merge (processed : Params) (uq : String) (ctx : Ctx) :
    (let carry := finalIntent processed uq = "refine_criteria" ∨
        finalIntent processed uq = "clarify" ∨
        finalIntent processed uq = "add_criteria"
     ((mergeStage processed uq ctx).minPrice =
       if processed.minPrice.isSome = true
          ∧ queryMentions uq PRICE_KEYWORDS = true then processed.minPrice
       else if carry ∧ ctx.confirmedMinPrice.isSome = true
       then ctx.confirmedMinPrice else none) ∧
     ((mergeStage processed uq ctx).maxPrice =
       if processed.maxPrice.isSome = true
          ∧ queryMentions uq PRICE_KEYWORDS = true then processed.maxPrice
       else if carry ∧ ctx.confirmedMaxPrice.isSome = true
       then ctx.confirmedMaxPrice else none) ∧
     ((mergeStage processed uq ctx).minYear =
       if processed.minYear.isSome = true
          ∧ queryMentions uq YEAR_KEYWORDS = true then processed.minYear
       else if carry ∧ ctx.confirmedMinYear.isSome = true
       then ctx.confirmedMinYear else none) ∧
     ((mergeStage processed uq ctx).maxYear =
       if processed.maxYear.isSome = true
          ∧ queryMentions uq YEAR_KEYWORDS = true then processed.maxYear
       else if carry ∧ ctx.confirmedMaxYear.isSome = true
       then ctx.confirmedMaxYear else none) ∧
     ((mergeStage processed uq ctx).maxMileage =
       if processed.maxMileage.isSome = true
          ∧ queryMentions uq MILEAGE_KEYWORDS = true then processed.maxMileage
       else if carry ∧ ctx.confirmedMaxMileage.isSome = true
       then ctx.confirmedMaxMileage else none) ∧
     ((mergeStage processed uq ctx).transmission =
       if processed.transmission.isSome = true
          ∧ queryMentions uq TRANSMISSION_KEYWORDS = true
       then processed.transmission
       else if carry ∧ ctx.confirmedTransmission.isSome = true
       then ctx.confirmedTransmission else none) ∧
     ((mergeStage processed uq ctx).minEngineSize =
       if processed.minEngineSize.isSome = true
          ∧ queryMentions uq ENGINE_KEYWORDS = true then processed.minEngineSize
       else if carry ∧ ctx.confirmedMinEngineSize.isSome = true
       then ctx.confirmedMinEngineSize else none) ∧
     ((mergeStage processed uq ctx).maxEngineSize =
       if processed.maxEngineSize.isSome = true
          ∧ queryMentions uq ENGINE_KEYWORDS = true then processed.maxEngineSize
       else if carry ∧ ctx.confirmedMaxEngineSize.isSome = true
       then ctx.confirmedMaxEngineSize else none) ∧
     ((mergeStage processed uq ctx).minHorsepower =
       if processed.minHorsepower.isSome = true
          ∧ queryMentions uq HP_KEYWORDS = true then processed.minHorsepower
       else if carry ∧ ctx.confirmedMinHorsePower.isSome = true
       then ctx.confirmedMinHorsePower else none) ∧
     ((mergeStage processed uq ctx).maxHorsepower =
       if processed.maxHorsepower.isSome = true
          ∧ queryMentions uq HP_KEYWORDS = true then processed.maxHorsepower
       else if carry ∧ ctx.confirmedMaxHorsePower.isSome = true
       then ctx.confirmedMaxHorsePower else none)) := by
  obtain ⟨h1, h2, h3, h4, h5, -, -, -, -, -, -, -, -, -, h15, h16, h17, h18,
    h19, -, -, -⟩ :=
    clarificationOverrides_preserve processed
      (extract_newest_user_fragment uq) (mergeCore processed uq ctx)
  unfold mergeStage
  rw [h1, h2, h3, h4, h5, h15, h16, h17, h18, h19]
  simp [mergeCore, mergeScalar_eq_ite]

/-- The raw LLM output of the C2 witness: a grounded `minPrice`. -/
def c2raw : RawParams :=
  { intent := .str "refine_criteria"
    minPrice := .num 25000 }

/-- The C2 witness utterance (contains the price keyword `price`). -/
def c2query : String := "minimum price 25000"

/-- The C2 witness context. -/
def c2ctx : Ctx := { confirmedMaxPrice := some 30000 }

/-- Claim C2, witness: instantiating the scalar-merge characterization
at a concrete turn, the grounded `minPrice` is kept and the unmentioned
`maxPrice` is carried over from context. -/
theorem c2_scalar_merge_witness :
    (mergeStage (process_parameters 2026 c2raw) c2query c2ctx).minPrice
      = some 25000 ∧
    (mergeStage (process_parameters 2026 c2raw) c2query c2ctx).maxPrice
      = some 30000 := by
  obtain ⟨e1, e2, -⟩ :=
    c2_scalar_merge (process_parameters 2026 c2raw) c2query c2ctx
  exact ⟨e1.trans (by decide), e2.trans (by decide)⟩

/-- Claim C5.  Normalization is idempotent: serializing the normalized
record back into a raw dict and normalizing again yields an equal
record, for every input dict. -/
theorem c5_normalize_idempotent (current_year : ℤ) (p : RawParams) :
    process_parameters current_year
        (paramsToRaw (process_parameters current_year p)) =
      process_parameters current_year p := by
  unfold process_parameters paramsToRaw
  simp only [normPrice_idem, normYear_idem, normMileage_idem, normEngine_idem,
    normHp_idem, normFlag_idem, normOptStr_idem, normStrList_idem,
    normFeatures_idem, normIntent_idem, normTransmission_idem,
    normList_idem VALID_MANUFACTURERS canonLookup_self_makes,
    normList_idem VALID_FUEL_TYPES canonLookup_self_fuels,
    normList_idem VALID_VEHICLE_TYPES canonLookup_self_types]

/-- Claim C8 (code bug).  For the query `Whats the weather like today?`
(with an apostrophe before the `s`) the heuristic `is_car_related`
returns `true`, i.e. it does NOT classify the query as off-topic, so
the off-topic early return of `extract_parameters` is not taken; the
docstring of `is_car_related` itself documents `False` for the same
query shape, which this theorem also evaluates. -/
theorem c8_is_car_related_weather_query :
    is_car_related ("What" ++ apo ++ "s the weather like today?") = true ∧
    is_car_related ("What" ++ apo ++ "s the weather like?") = true := by
  constructor <;> rfl

/-- Claim C7, amended: an unexpected internal exception is caught at the
top-level handler of `extract_parameters` and converted into a default
record with intent `error`, but it is returned with HTTP status 500
(not 200); the status-200 `intent="error"` response exists only on the
handled soft-failure path (all LLM extraction attempts failed). -/
theorem c7_error_handler_amended :
    unhandled_exception_response.1 =
      create_default_parameters "error" false none false [] none none ∧
    unhandled_exception_response.1.intent = "error" ∧
    unhandled_exception_response.2 = 500 ∧
    llm_failure_soft_response.1.intent = "error" ∧
    llm_failure_soft_response.2 = 200 := by
  refine ⟨rfl, rfl, rfl, rfl, rfl⟩

/-- Claim C7, counterexample: the top-level exception handler does not
return HTTP 200; its status is 500. -/
theorem c7_counterexample :
    unhandled_exception_response.2 ≠ 200 ∧
    unhandled_exception_response.2 = 500 := by
  exact ⟨by decide, rfl⟩

/-- Claim C9.  Zero-shot intent classification returns the
argmax-cosine-similarity label when its score reaches the threshold;
below the threshold it returns `VAGUE_INQUIRY` exactly when
`VAGUE_INQUIRY` had the top score or both scores are below the low
threshold `0.3`, and `SPECIFIC_SEARCH` otherwise; it returns `none`
when the label-similarity table is empty (label embeddings unavailable)
or the query embedding is missing, and the caller then defaults the
intent to `SPECIFIC_SEARCH`. -/
theorem c9_classify_intent (labelSims : List (String × ℚ)) (missing : Bool)
    (threshold : ℚ) :
    classify_intent_zero_shot [] missing threshold = none ∧
    classify_intent_zero_shot labelSims true threshold = none ∧
    caller_default_intent none = "SPECIFIC_SEARCH" ∧
    (labelSims ≠ [] → missing = false →
      (argmaxFirst labelSims ∈ labelSims ∧
       ∀ p ∈ labelSims, p.2 ≤ (argmaxFirst labelSims).2) ∧
      (threshold ≤ (argmaxFirst labelSims).2 →
        classify_intent_zero_shot labelSims missing threshold =
          some (argmaxFirst labelSims).1) ∧
      ((argmaxFirst labelSims).2 < threshold →
        classify_intent_zero_shot labelSims missing threshold =
          (if (argmaxFirst labelSims).1 = "VAGUE_INQUIRY"
              ∨ ((labelSims.lookup "SPECIFIC_SEARCH").getD 0 < mkRat 3 10
                 ∧ (labelSims.lookup "VAGUE_INQUIRY").getD 0 < mkRat 3 10)
           then some "VAGUE_INQUIRY" else some "SPECIFIC_SEARCH"))) := by
  refine ⟨by simp [classify_intent_zero_shot], ?_, rfl, ?_⟩
  · simp [classify_intent_zero_shot]
  · intro hne hmiss
    have hempty : labelSims.isEmpty = false := by
      cases labelSims with
      | nil => exact absurd rfl hne
      | cons a t => rfl
    refine ⟨argmaxFirst_spec labelSims hne, ?_, ?_⟩
    · intro hth
      unfold classify_intent_zero_shot
      rw [hempty, hmiss]
      simp only [Bool.false_eq_true, if_false]
      rw [if_pos hth]
    · intro hlt
      unfold classify_intent_zero_shot
      rw [hempty, hmiss]
      simp only [Bool.false_eq_true, if_false]
      rw [if_neg (not_le.2 hlt)]
      simp only [Bool.or_eq_true, beq_iff_eq, Bool.and_eq_true, decide_eq_true_eq]

/-- Claim C9, witness: on concrete scores `SPECIFIC_SEARCH ↦ 0.5`,
`VAGUE_INQUIRY ↦ 0.4` and threshold `0.35`, classification follows the
argmax branch of the theorem and returns `SPECIFIC_SEARCH`. -/
theorem c9_classify_intent_witness :
    classify_intent_zero_shot
      [("SPECIFIC_SEARCH", mkRat 1 2), ("VAGUE_INQUIRY", mkRat 2 5)] false (mkRat 35 100) =
      some (argmaxFirst [("SPECIFIC_SEARCH", mkRat 1 2), ("VAGUE_INQUIRY", mkRat 2 5)]).1 ∧
    (argmaxFirst [("SPECIFIC_SEARCH", mkRat 1 2), ("VAGUE_INQUIRY", mkRat 2 5)]).1 =
      "SPECIFIC_SEARCH" := by
  refine ⟨?_, by decide⟩
  exact ((c9_classify_intent
    [("SPECIFIC_SEARCH", mkRat 1 2), ("VAGUE_INQUIRY", mkRat 2 5)] false (mkRat 35 100)).2.2.2
    (by decide) rfl).2.1 (by decide)

/-- Claim C10.  The luxury-make branch of the plausibility guardrail is
unreachable on normalized input: for every raw extraction, normalized
`preferredMakes` never contains `Ferrari` (the list is filtered to
`VALID_MANUFACTURERS`, which lacks it), so `validation_failed` reduces
to the two min>max range checks. -/
theorem c10_ferrari_guard_unreachable (current_year : ℤ) (raw : RawParams) :
    ((process_parameters current_year raw).preferredMakes.contains "Ferrari")
      = false ∧
    validationFailed (process_parameters current_year raw) =
      (rangeFailPrice (process_parameters current_year raw)
        || rangeFailYear (process_parameters current_year raw)) := by
  have hmem : "Ferrari" ∉ (process_parameters current_year raw).preferredMakes := by
    intro h
    have hv := normList_subset VALID_MANUFACTURERS raw.preferredMakes "Ferrari" h
    exact absurd hv (by decide)
  have hc : ((process_parameters current_year raw).preferredMakes.contains "Ferrari")
      = false := by
    rw [← Bool.not_eq_true]
    intro hcon
    exact hmem (List.mem_of_elem_eq_true hcon)
  refine ⟨hc, ?_⟩
  unfold validationFailed ferrariFail
  rw [hc]
  cases hp : rangeFailPrice (process_parameters current_year raw) <;>
    cases hq : rangeFailYear (process_parameters current_year raw) <;>
      simp [hp, hq]

end SmartAuto
